import Mathlib

/-!
A verification model of the biglisp expression expander.

The definitions below are a shallow embedding of `src/biglisp-core/src/lib.rs`
(the `LispExpr` data model, the `to_rust` code generator and the
`expand_operation` operation table) and of the `lisp!` entry point in
`src/biglisp-macros/src/lib.rs`. Generated Rust token streams are modelled by
the `RustExpr` abstract-syntax type, whose constructors correspond one-to-one
to the `quote!` templates in the source; `compile_error!` diagnostics are the
`compileError` constructor. A small fuel-based evaluator `evalRust` gives the
standard Rust semantics of the generated fragments so that claims about what
generated code computes can be settled.
-/

set_option maxHeartbeats 1000000

namespace BigLisp

/-- Literal values, mirroring the `syn::Lit` cases the embedding needs
(integer, string and boolean literals). -/
inductive Lit
  | int (n : Int)
  | str (s : String)
  | bool (b : Bool)
deriving DecidableEq, Repr

/-- The `LispExpr` enum of `src/biglisp-core/src/lib.rs`: symbols (identifiers),
literals, parenthesized lists, bracketed vectors, and punctuation operators. -/
inductive LispExpr
  | Symbol (ident : String)
  | Literal (lit : Lit)
  | List (exprs : List LispExpr)
  | Vector (exprs : List LispExpr)
  | Operator (op : String)

/-- Generated Rust code, one constructor per `quote!` template shape used by
`to_rust` / `expand_operation`. Parenthesization in the Rust token output is
immaterial at this abstract-syntax level. -/
inductive RustExpr
  /-- `()` -/
  | unit
  /-- a spliced literal `#lit` -/
  | lit (l : Lit)
  /-- a bare identifier `#ident` -/
  | ident (name : String)
  /-- `compile_error!("msg")` -/
  | compileError (msg : String)
  /-- the aborted expansion: `Ident::new` was called on a string that is not a
  valid identifier and panicked, so the macro produces no tokens at all -/
  | identPanic (name : String)
  /-- `(#l) op (#r)` for the binary operators `+ - * / % == < > >= <= != && ||` -/
  | binOp (op : String) (l r : RustExpr)
  /-- `-(#e)` -/
  | unaryNeg (e : RustExpr)
  /-- `!(#e)` -/
  | unaryNot (e : RustExpr)
  /-- `if (#c) { #t }` -/
  | ifThen (c t : RustExpr)
  /-- `if (#c) { #t } else { #e }` -/
  | ifThenElse (c t e : RustExpr)
  /-- `{ let n1 = v1; let n2 = v2; ... #body }` -/
  | letBlock (binds : List (String × RustExpr)) (body : RustExpr)
  /-- `{ let #name = |#params: i32| -> i32 { #body }; #name }` -/
  | defnClosure (name : String) (params : List String) (body : RustExpr)
  /-- `(#f)(#args)` (also the plain-call form `#f(#args)`) -/
  | callExpr (f : RustExpr) (args : List RustExpr)
  /-- the `try` template: `catch_unwind` around `body`, with an optional fallback -/
  | tryBlock (body : RustExpr) (fallback : Option RustExpr)
  /-- `{ #(#stmts);* }` -/
  | doBlock (stmts : List RustExpr)
  /-- `{ let mut result = (); while (#cond) { result = #body; } result }` -/
  | whileLoop (cond body : RustExpr)
  /-- `{ for #var in 0..(#count) { let _ = #body; } () }` -/
  | dotimesLoop (var : String) (count body : RustExpr)
  /-- `vec![#elems]` -/
  | vecLit (elems : List RustExpr)
  /-- `(#e).first().copied().unwrap_or_default()` -/
  | firstOf (e : RustExpr)
  /-- `{ let v = #e; if v.len() > 1 { v[1..].to_vec() } else { vec![] } }` -/
  | restOf (e : RustExpr)
  /-- `{ let mut result = vec![(#h)]; result.extend(#coll); result }` -/
  | consOnto (h coll : RustExpr)
  /-- `(#e).len()` -/
  | countOf (e : RustExpr)
  /-- `String::new()` -/
  | strNew
  /-- `[#((#part).to_string()),*].join("")` -/
  | strConcat (parts : List RustExpr)
  /-- `std::cmp::min(#l, #r)` -/
  | minOf (l r : RustExpr)
  /-- `std::cmp::max(#l, #r)` -/
  | maxOf (l r : RustExpr)
  /-- `((#e) as i32).abs()` -/
  | absI32 (e : RustExpr)
  /-- `println!("{:?}", #arg)` -/
  | printlnDebug (arg : RustExpr)
  /-- `println!("{:?}", (#(#args),*))` — debug print of a tuple of the arguments -/
  | printlnTuple (args : List RustExpr)

compile_inductive% LispExpr
compile_inductive% RustExpr

/-- One step of Rust's `str::replace`: scan left to right, replacing every
non-overlapping occurrence of `pat` by `rep`. Fuel-indexed so the definition
is structurally recursive; `fuel = s.length` always suffices because each
step consumes at least one character. All call sites use non-empty patterns,
matching the literal patterns in the source. -/
def replaceFuel : Nat → List Char → List Char → List Char → List Char
  | 0, s, _, _ => s
  | _ + 1, [], _, _ => []
  | fuel + 1, c :: rest, pat, rep =>
    if 0 < pat.length ∧ pat.isPrefixOf (c :: rest) then
      rep ++ replaceFuel fuel (List.drop (pat.length - 1) rest) pat rep
    else
      c :: replaceFuel fuel rest pat rep

/-- Rust's `str::replace` on strings (for non-empty patterns). -/
def strReplace (s pat rep : String) : String :=
  String.mk (replaceFuel s.toList.length s.toList pat.toList rep.toList)

/-- The identifier generated for a standalone `Operator(op)` by the `Operator`
arm of `to_rust`: `op_` prefixed to the result of the sequential `.replace`
chain of the source (in source order: `+ - * / = < > >= <= != %`). -/
def operatorIdent (op : String) : String :=
  "op_" ++
    (strReplace
      (strReplace
        (strReplace
          (strReplace
            (strReplace
              (strReplace
                (strReplace
                  (strReplace
                    (strReplace
                      (strReplace
                        (strReplace op "+" "plus")
                        "-" "minus")
                      "*" "mul")
                    "/" "div")
                  "=" "eq")
                "<" "lt")
              ">" "gt")
            ">=" "gte")
          "<=" "lte")
        "!=" "ne")
      "%" "mod")

/-- Whether a character may start a Rust identifier (the ASCII fragment,
which covers every string this program can feed to `Ident::new`). -/
def isIdentStart (c : Char) : Bool := c.isAlpha || c = '_'

/-- Whether a character may continue a Rust identifier (ASCII fragment). -/
def isIdentContinue (c : Char) : Bool := c.isAlphanum || c = '_'

/-- The validity check `Ident::new` (`proc_macro2`) performs on its string: a
nonempty string whose first character may start an identifier and whose
remaining characters may continue one. On anything else `Ident::new` panics,
aborting the macro expansion instead of producing tokens. -/
def isValidIdent (s : String) : Bool :=
  match s.toList with
  | [] => false
  | c :: cs => isIdentStart c && cs.all isIdentContinue

/-- The `filter_map` projection used by the `defn` and `with-vars` arms:
keep a `Symbol`'s name, drop every other expression. -/
def symbolName : LispExpr → Option String
  | .Symbol s => some s
  | _ => none

/-- Parameter-name extraction of the `defn` arm (and variable-name extraction
of the `with-vars` arm): `params.iter().filter_map(...)` keeping only
`Symbol`s. -/
def symbolNames (params : List LispExpr) : List String :=
  params.filterMap symbolName

mutual

/-- `LispExpr::to_rust` of `src/biglisp-core/src/lib.rs`, fuel-indexed so the
definition is structurally recursive on the fuel. Every recursive call uses
one unit of fuel; `expander_mono` below shows any fuel of at least `sizeOf e`
gives the same result, and the fuel-free wrapper `to_rust` instantiates it.
Empty lists become `()`; lists headed by a `Symbol` or `Operator` dispatch
through the operation table; other lists are plain calls. -/
def to_rustF : Nat → LispExpr → RustExpr
  | 0, _ => .compileError "recursion limit"
  | fuel + 1, e =>
    match e with
    | .Symbol ident => .ident ident
    | .Literal l => .lit l
    | .Operator op =>
      if isValidIdent (operatorIdent op) then .ident (operatorIdent op)
      else .identPanic (operatorIdent op)
    | .Vector exprs => .vecLit (to_rust_listF fuel exprs)
    | .List [] => .unit
    | .List (.Symbol op :: rest) => expand_operationF fuel op rest
    | .List (.Operator op :: rest) => expand_operationF fuel op rest
    | .List (first :: rest) => .callExpr (to_rustF fuel first) (to_rust_listF fuel rest)

/-- Pointwise `to_rustF` over a list of argument expressions (the
`args.iter().map(|e| e.to_rust())` iterator of the source), fuel-indexed. -/
def to_rust_listF : Nat → List LispExpr → List RustExpr
  | 0, _ => []
  | _ + 1, [] => []
  | fuel + 1, e :: es => to_rustF fuel e :: to_rust_listF fuel es

/-- The binding-pair extraction of the `let` arm: `bindings.chunks(2)`, where
a chunk of two whose first element is a `Symbol` contributes one
`let name = value;`, any other chunk of two is skipped, and a trailing
singleton chunk is skipped. Fuel-indexed. -/
def let_pairsF : Nat → List LispExpr → List (String × RustExpr)
  | 0, _ => []
  | fuel + 1, b0 :: value :: rest =>
    match b0 with
    | .Symbol name => (name, to_rustF fuel value) :: let_pairsF fuel rest
    | _ => let_pairsF fuel rest
  | _ + 1, _ => []

/-- `LispExpr::expand_operation` of `src/biglisp-core/src/lib.rs`: the
operation table, fuel-indexed. The source's `match` on the operation string
is rendered as the equivalent sequence of equality tests, in source order;
each arm mirrors the corresponding `match` arm of the source, including its
argument-count checks and its `compile_error!` messages. An unrecognized
operation falls back to a plain call. -/
def expand_operationF : Nat → String → List LispExpr → RustExpr
  | 0, _, _ => .compileError "recursion limit"
  | fuel + 1, op_str, args =>
    if op_str = "+" then
      match args with
      | [] => .lit (.int 0)
      | [x] => to_rustF fuel x
      | x :: y :: restArgs =>
        (to_rust_listF fuel (x :: y :: restArgs)).foldl
          (fun acc t => .binOp "+" acc t) (.lit (.int 0))
    else if op_str = "-" then
      match args with
      | [x] => .unaryNeg (to_rustF fuel x)
      | x :: y :: restArgs =>
        (to_rust_listF fuel (y :: restArgs)).foldl
          (fun acc t => .binOp "-" acc t) (to_rustF fuel x)
      | [] => .compileError "Subtraction requires at least 1 argument"
    else if op_str = "*" then
      match args with
      | [] => .lit (.int 1)
      | [x] => to_rustF fuel x
      | x :: y :: restArgs =>
        (to_rust_listF fuel (x :: y :: restArgs)).foldl
          (fun acc t => .binOp "*" acc t) (.lit (.int 1))
    else if op_str = "/" then
      match args with
      | x :: y :: restArgs =>
        (to_rust_listF fuel (y :: restArgs)).foldl
          (fun acc t => .binOp "/" acc t) (to_rustF fuel x)
      | _ => .compileError "Division requires at least 2 arguments"
    else if op_str = "=" ∨ op_str = "eq" then
      match args with
      | [a, b] => .binOp "==" (to_rustF fuel a) (to_rustF fuel b)
      | _ => .compileError "Equality requires exactly 2 arguments"
    else if op_str = "<" then
      match args with
      | [a, b] => .binOp "<" (to_rustF fuel a) (to_rustF fuel b)
      | _ => .compileError "Less-than requires exactly 2 arguments"
    else if op_str = ">" then
      match args with
      | [a, b] => .binOp ">" (to_rustF fuel a) (to_rustF fuel b)
      | _ => .compileError "Greater-than requires exactly 2 arguments"
    else if op_str = "gte" then
      match args with
      | [a, b] => .binOp ">=" (to_rustF fuel a) (to_rustF fuel b)
      | _ => .compileError "Greater-than-or-equal requires exactly 2 arguments"
    else if op_str = "lte" then
      match args with
      | [a, b] => .binOp "<=" (to_rustF fuel a) (to_rustF fuel b)
      | _ => .compileError "Less-than-or-equal requires exactly 2 arguments"
    else if op_str = "ne" then
      match args with
      | [a, b] => .binOp "!=" (to_rustF fuel a) (to_rustF fuel b)
      | _ => .compileError "Not-equal requires exactly 2 arguments"
    else if op_str = "%" ∨ op_str = "modulo" then
      match args with
      | [a, b] => .binOp "%" (to_rustF fuel a) (to_rustF fuel b)
      | _ => .compileError "Modulo requires exactly 2 arguments"
    else if op_str = "if" then
      match args with
      | [c, t] => .ifThen (to_rustF fuel c) (to_rustF fuel t)
      | [c, t, e] => .ifThenElse (to_rustF fuel c) (to_rustF fuel t) (to_rustF fuel e)
      | _ => .compileError "If requires 2 or 3 arguments"
    else if op_str = "let" then
      match args with
      | first :: body :: _ =>
        match first with
        | .Vector bindings => .letBlock (let_pairsF fuel bindings) (to_rustF fuel body)
        | _ => .compileError "Let requires vector of bindings"
      | _ => .compileError "Let requires bindings and body"
    else if op_str = "defn" then
      match args with
      | a0 :: a1 :: body :: _ =>
        match a0, a1 with
        | .Symbol name, .Vector params =>
          .defnClosure name (symbolNames params) (to_rustF fuel body)
        | _, _ =>
          .compileError "Function definition format: (defn name [params] body)"
      | _ => .compileError "Function definition requires name, params, and body"
    else if op_str = "call" then
      match args with
      | fn :: fargs => .callExpr (to_rustF fuel fn) (to_rust_listF fuel fargs)
      | [] => .compileError "call requires at least a function"
    else if op_str = "try" then
      match args with
      | b :: c :: _ => .tryBlock (to_rustF fuel b) (some (to_rustF fuel c))
      | [b] => .tryBlock (to_rustF fuel b) none
      | [] => .compileError "try requires at least a body"
    else if op_str = "do" then .doBlock (to_rust_listF fuel args)
    else if op_str = "with-vars" then
      match args with
      | first :: body :: _ =>
        match first with
        | .Vector vars =>
          .letBlock ((symbolNames vars).map (fun v => (v, RustExpr.ident v)))
            (to_rustF fuel body)
        | _ => .compileError "with-vars requires vector of variable names"
      | _ => .compileError "with-vars requires variables and body"
    else if op_str = "while" then
      match args with
      | [c, b] => .whileLoop (to_rustF fuel c) (to_rustF fuel b)
      | _ => .compileError "While requires condition and body"
    else if op_str = "dotimes" then
      match args with
      | [a0, count, body] =>
        match a0 with
        | .Symbol var => .dotimesLoop var (to_rustF fuel count) (to_rustF fuel body)
        | _ => .compileError "dotimes requires variable name"
      | _ => .compileError "dotimes requires var, count, and body"
    else if op_str = "and" then
      match args with
      | x :: y :: restArgs =>
        (to_rust_listF fuel (x :: y :: restArgs)).foldl
          (fun acc t => .binOp "&&" acc t) (.lit (.bool true))
      | _ => .compileError "And requires at least 2 arguments"
    else if op_str = "or" then
      match args with
      | x :: y :: restArgs =>
        (to_rust_listF fuel (x :: y :: restArgs)).foldl
          (fun acc t => .binOp "||" acc t) (.lit (.bool false))
      | _ => .compileError "Or requires at least 2 arguments"
    else if op_str = "not" then
      match args with
      | [a] => .unaryNot (to_rustF fuel a)
      | _ => .compileError "Not requires exactly 1 argument"
    else if op_str = "first" then
      match args with
      | [a] => .firstOf (to_rustF fuel a)
      | _ => .compileError "First requires exactly 1 argument"
    else if op_str = "rest" then
      match args with
      | [a] => .restOf (to_rustF fuel a)
      | _ => .compileError "Rest requires exactly 1 argument"
    else if op_str = "cons" then
      match args with
      | [e, l] => .consOnto (to_rustF fuel e) (to_rustF fuel l)
      | _ => .compileError "Cons requires exactly 2 arguments"
    else if op_str = "count" then
      match args with
      | [a] => .countOf (to_rustF fuel a)
      | _ => .compileError "Count requires exactly 1 argument"
    else if op_str = "str" then
      match args with
      | [] => .strNew
      | other => .strConcat (to_rust_listF fuel other)
    else if op_str = "min" then
      match args with
      | x :: y :: restArgs =>
        (to_rust_listF fuel (y :: restArgs)).foldl
          (fun acc t => .minOf acc t) (to_rustF fuel x)
      | _ => .compileError "min requires at least 2 arguments"
    else if op_str = "max" then
      match args with
      | x :: y :: restArgs =>
        (to_rust_listF fuel (y :: restArgs)).foldl
          (fun acc t => .maxOf acc t) (to_rustF fuel x)
      | _ => .compileError "max requires at least 2 arguments"
    else if op_str = "abs" then
      match args with
      | [a] => .absI32 (to_rustF fuel a)
      | _ => .compileError "abs requires exactly 1 argument"
    else if op_str = "inc" then
      match args with
      | [a] => .binOp "+" (to_rustF fuel a) (.lit (.int 1))
      | _ => .compileError "inc requires exactly 1 argument"
    else if op_str = "dec" then
      match args with
      | [a] => .binOp "-" (to_rustF fuel a) (.lit (.int 1))
      | _ => .compileError "dec requires exactly 1 argument"
    else if op_str = "zero" then
      match args with
      | [a] => .binOp "==" (to_rustF fuel a) (.lit (.int 0))
      | _ => .compileError "zero requires exactly 1 argument"
    else if op_str = "pos" then
      match args with
      | [a] => .binOp ">" (to_rustF fuel a) (.lit (.int 0))
      | _ => .compileError "pos requires exactly 1 argument"
    else if op_str = "neg" then
      match args with
      | [a] => .binOp "<" (to_rustF fuel a) (.lit (.int 0))
      | _ => .compileError "neg requires exactly 1 argument"
    else if op_str = "even" then
      match args with
      | [a] => .binOp "==" (.binOp "%" (to_rustF fuel a) (.lit (.int 2))) (.lit (.int 0))
      | _ => .compileError "even requires exactly 1 argument"
    else if op_str = "odd" then
      match args with
      | [a] => .binOp "!=" (.binOp "%" (to_rustF fuel a) (.lit (.int 2))) (.lit (.int 0))
      | _ => .compileError "odd requires exactly 1 argument"
    else if op_str = "println" then
      match args with
      | [a] => .printlnDebug (to_rustF fuel a)
      | other => .printlnTuple (to_rust_listF fuel other)
    else .callExpr (.ident op_str) (to_rust_listF fuel args)

end

/-- `to_rust`, fuel-free: the fuel `sizeOf e + 1` is always sufficient (see
`expander_mono`). -/
def to_rust (e : LispExpr) : RustExpr := to_rustF (sizeOf e + 1) e

/-- Pointwise `to_rust`, fuel-free. -/
def to_rust_list (l : List LispExpr) : List RustExpr := to_rust_listF (sizeOf l + 1) l

/-- The `let` binding pairs, fuel-free. -/
def let_pairs (l : List LispExpr) : List (String × RustExpr) := let_pairsF (sizeOf l + 1) l

/-- The operation table, fuel-free. -/
def expand_operation (op_str : String) (args : List LispExpr) : RustExpr :=
  expand_operationF (sizeOf args + 2) op_str args

/-- One-step unfolding of `expand_operationF` at a successor fuel, stated so
the operation dispatch is visible for case analysis. Definitional. -/
theorem expand_operationF_succ (fuel : Nat) (op_str : String) (args : List LispExpr) :
    expand_operationF (fuel + 1) op_str args =
(if op_str = "+" then
      match args with
      | [] => .lit (.int 0)
      | [x] => to_rustF fuel x
      | x :: y :: restArgs =>
        (to_rust_listF fuel (x :: y :: restArgs)).foldl
          (fun acc t => .binOp "+" acc t) (.lit (.int 0))
    else if op_str = "-" then
      match args with
      | [x] => .unaryNeg (to_rustF fuel x)
      | x :: y :: restArgs =>
        (to_rust_listF fuel (y :: restArgs)).foldl
          (fun acc t => .binOp "-" acc t) (to_rustF fuel x)
      | [] => .compileError "Subtraction requires at least 1 argument"
    else if op_str = "*" then
      match args with
      | [] => .lit (.int 1)
      | [x] => to_rustF fuel x
      | x :: y :: restArgs =>
        (to_rust_listF fuel (x :: y :: restArgs)).foldl
          (fun acc t => .binOp "*" acc t) (.lit (.int 1))
    else if op_str = "/" then
      match args with
      | x :: y :: restArgs =>
        (to_rust_listF fuel (y :: restArgs)).foldl
          (fun acc t => .binOp "/" acc t) (to_rustF fuel x)
      | _ => .compileError "Division requires at least 2 arguments"
    else if op_str = "=" ∨ op_str = "eq" then
      match args with
      | [a, b] => .binOp "==" (to_rustF fuel a) (to_rustF fuel b)
      | _ => .compileError "Equality requires exactly 2 arguments"
    else if op_str = "<" then
      match args with
      | [a, b] => .binOp "<" (to_rustF fuel a) (to_rustF fuel b)
      | _ => .compileError "Less-than requires exactly 2 arguments"
    else if op_str = ">" then
      match args with
      | [a, b] => .binOp ">" (to_rustF fuel a) (to_rustF fuel b)
      | _ => .compileError "Greater-than requires exactly 2 arguments"
    else if op_str = "gte" then
      match args with
      | [a, b] => .binOp ">=" (to_rustF fuel a) (to_rustF fuel b)
      | _ => .compileError "Greater-than-or-equal requires exactly 2 arguments"
    else if op_str = "lte" then
      match args with
      | [a, b] => .binOp "<=" (to_rustF fuel a) (to_rustF fuel b)
      | _ => .compileError "Less-than-or-equal requires exactly 2 arguments"
    else if op_str = "ne" then
      match args with
      | [a, b] => .binOp "!=" (to_rustF fuel a) (to_rustF fuel b)
      | _ => .compileError "Not-equal requires exactly 2 arguments"
    else if op_str = "%" ∨ op_str = "modulo" then
      match args with
      | [a, b] => .binOp "%" (to_rustF fuel a) (to_rustF fuel b)
      | _ => .compileError "Modulo requires exactly 2 arguments"
    else if op_str = "if" then
      match args with
      | [c, t] => .ifThen (to_rustF fuel c) (to_rustF fuel t)
      | [c, t, e] => .ifThenElse (to_rustF fuel c) (to_rustF fuel t) (to_rustF fuel e)
      | _ => .compileError "If requires 2 or 3 arguments"
    else if op_str = "let" then
      match args with
      | first :: body :: _ =>
        match first with
        | .Vector bindings => .letBlock (let_pairsF fuel bindings) (to_rustF fuel body)
        | _ => .compileError "Let requires vector of bindings"
      | _ => .compileError "Let requires bindings and body"
    else if op_str = "defn" then
      match args with
      | a0 :: a1 :: body :: _ =>
        match a0, a1 with
        | .Symbol name, .Vector params =>
          .defnClosure name (symbolNames params) (to_rustF fuel body)
        | _, _ =>
          .compileError "Function definition format: (defn name [params] body)"
      | _ => .compileError "Function definition requires name, params, and body"
    else if op_str = "call" then
      match args with
      | fn :: fargs => .callExpr (to_rustF fuel fn) (to_rust_listF fuel fargs)
      | [] => .compileError "call requires at least a function"
    else if op_str = "try" then
      match args with
      | b :: c :: _ => .tryBlock (to_rustF fuel b) (some (to_rustF fuel c))
      | [b] => .tryBlock (to_rustF fuel b) none
      | [] => .compileError "try requires at least a body"
    else if op_str = "do" then .doBlock (to_rust_listF fuel args)
    else if op_str = "with-vars" then
      match args with
      | first :: body :: _ =>
        match first with
        | .Vector vars =>
          .letBlock ((symbolNames vars).map (fun v => (v, RustExpr.ident v)))
            (to_rustF fuel body)
        | _ => .compileError "with-vars requires vector of variable names"
      | _ => .compileError "with-vars requires variables and body"
    else if op_str = "while" then
      match args with
      | [c, b] => .whileLoop (to_rustF fuel c) (to_rustF fuel b)
      | _ => .compileError "While requires condition and body"
    else if op_str = "dotimes" then
      match args with
      | [a0, count, body] =>
        match a0 with
        | .Symbol var => .dotimesLoop var (to_rustF fuel count) (to_rustF fuel body)
        | _ => .compileError "dotimes requires variable name"
      | _ => .compileError "dotimes requires var, count, and body"
    else if op_str = "and" then
      match args with
      | x :: y :: restArgs =>
        (to_rust_listF fuel (x :: y :: restArgs)).foldl
          (fun acc t => .binOp "&&" acc t) (.lit (.bool true))
      | _ => .compileError "And requires at least 2 arguments"
    else if op_str = "or" then
      match args with
      | x :: y :: restArgs =>
        (to_rust_listF fuel (x :: y :: restArgs)).foldl
          (fun acc t => .binOp "||" acc t) (.lit (.bool false))
      | _ => .compileError "Or requires at least 2 arguments"
    else if op_str = "not" then
      match args with
      | [a] => .unaryNot (to_rustF fuel a)
      | _ => .compileError "Not requires exactly 1 argument"
    else if op_str = "first" then
      match args with
      | [a] => .firstOf (to_rustF fuel a)
      | _ => .compileError "First requires exactly 1 argument"
    else if op_str = "rest" then
      match args with
      | [a] => .restOf (to_rustF fuel a)
      | _ => .compileError "Rest requires exactly 1 argument"
    else if op_str = "cons" then
      match args with
      | [e, l] => .consOnto (to_rustF fuel e) (to_rustF fuel l)
      | _ => .compileError "Cons requires exactly 2 arguments"
    else if op_str = "count" then
      match args with
      | [a] => .countOf (to_rustF fuel a)
      | _ => .compileError "Count requires exactly 1 argument"
    else if op_str = "str" then
      match args with
      | [] => .strNew
      | other => .strConcat (to_rust_listF fuel other)
    else if op_str = "min" then
      match args with
      | x :: y :: restArgs =>
        (to_rust_listF fuel (y :: restArgs)).foldl
          (fun acc t => .minOf acc t) (to_rustF fuel x)
      | _ => .compileError "min requires at least 2 arguments"
    else if op_str = "max" then
      match args with
      | x :: y :: restArgs =>
        (to_rust_listF fuel (y :: restArgs)).foldl
          (fun acc t => .maxOf acc t) (to_rustF fuel x)
      | _ => .compileError "max requires at least 2 arguments"
    else if op_str = "abs" then
      match args with
      | [a] => .absI32 (to_rustF fuel a)
      | _ => .compileError "abs requires exactly 1 argument"
    else if op_str = "inc" then
      match args with
      | [a] => .binOp "+" (to_rustF fuel a) (.lit (.int 1))
      | _ => .compileError "inc requires exactly 1 argument"
    else if op_str = "dec" then
      match args with
      | [a] => .binOp "-" (to_rustF fuel a) (.lit (.int 1))
      | _ => .compileError "dec requires exactly 1 argument"
    else if op_str = "zero" then
      match args with
      | [a] => .binOp "==" (to_rustF fuel a) (.lit (.int 0))
      | _ => .compileError "zero requires exactly 1 argument"
    else if op_str = "pos" then
      match args with
      | [a] => .binOp ">" (to_rustF fuel a) (.lit (.int 0))
      | _ => .compileError "pos requires exactly 1 argument"
    else if op_str = "neg" then
      match args with
      | [a] => .binOp "<" (to_rustF fuel a) (.lit (.int 0))
      | _ => .compileError "neg requires exactly 1 argument"
    else if op_str = "even" then
      match args with
      | [a] => .binOp "==" (.binOp "%" (to_rustF fuel a) (.lit (.int 2))) (.lit (.int 0))
      | _ => .compileError "even requires exactly 1 argument"
    else if op_str = "odd" then
      match args with
      | [a] => .binOp "!=" (.binOp "%" (to_rustF fuel a) (.lit (.int 2))) (.lit (.int 0))
      | _ => .compileError "odd requires exactly 1 argument"
    else if op_str = "println" then
      match args with
      | [a] => .printlnDebug (to_rustF fuel a)
      | other => .printlnTuple (to_rust_listF fuel other)
    else .callExpr (.ident op_str) (to_rust_listF fuel args)) := rfl

/-- Whether a generated fragment is, at top level, a `compile_error!`
diagnostic — the expansion-error outcome of an operation. -/
def isCompileError : RustExpr → Bool
  | .compileError _ => true
  | _ => false

/-- The identifier named by a generated fragment, when it is a bare
identifier reference. -/
def identName : RustExpr → Option String
  | .ident s => some s
  | _ => none

/-! ### Semantics of generated code

The Rust source never evaluates anything; the following small-step-free,
fuel-indexed evaluator is the standard Rust meaning of the generated
fragments, used to settle claims of the form "the generated code evaluates
to v". Panics (including `try`/`catch_unwind` and arithmetic overflow) are
not modelled: such evaluations yield `none`. -/

/-- Runtime values of the generated code. -/
inductive Value
  | unit
  | int (n : Int)
  | bool (b : Bool)
  | str (s : String)
  | vec (elems : List Value)
  | closure (params : List String) (body : RustExpr) (env : List (String × Value))

/-- Variable environments: innermost binding first, so a later `let` of the
same name shadows an earlier one. -/
abbrev Env := List (String × Value)

/-- Scope lookup: the most recent binding of the name wins. -/
def lookupVar : Env → String → Option Value
  | [], _ => none
  | (k, v) :: rest, n => if k = n then some v else lookupVar rest n

/-- Rust's binary operators on values, for the operator strings that
`expand_operation` emits. `/` and `%` are Rust `i32` semantics: truncation
toward zero, remainder with the sign of the dividend, division by zero is a
panic (`none`). -/
def evalBinOp : String → Value → Value → Option Value
  | "+", .int x, .int y => some (.int (x + y))
  | "-", .int x, .int y => some (.int (x - y))
  | "*", .int x, .int y => some (.int (x * y))
  | "/", .int x, .int y => if y = 0 then none else some (.int (Int.tdiv x y))
  | "%", .int x, .int y => if y = 0 then none else some (.int (Int.tmod x y))
  | "==", .int x, .int y => some (.bool (decide (x = y)))
  | "==", .bool x, .bool y => some (.bool (x == y))
  | "==", .str x, .str y => some (.bool (x == y))
  | "!=", .int x, .int y => some (.bool (decide (x ≠ y)))
  | "!=", .bool x, .bool y => some (.bool (x != y))
  | "!=", .str x, .str y => some (.bool (x != y))
  | "<", .int x, .int y => some (.bool (decide (x < y)))
  | ">", .int x, .int y => some (.bool (decide (x > y)))
  | ">=", .int x, .int y => some (.bool (decide (x ≥ y)))
  | "<=", .int x, .int y => some (.bool (decide (x ≤ y)))
  | "&&", .bool x, .bool y => some (.bool (x && y))
  | "||", .bool x, .bool y => some (.bool (x || y))
  | _, _, _ => none

/-- Rust's `Display`-based `.to_string()`, for the value types the `str`
expansion can be given (types without `Display` yield `none`). -/
def valueToString : Value → Option String
  | .int n => some (toString n)
  | .str s => some s
  | .bool b => some (if b then "true" else "false")
  | _ => none

mutual

/-- Evaluate a generated fragment under an environment. Fuel-indexed; every
recursive call, including loop iterations, consumes one unit of fuel, so any
terminating evaluation succeeds for all sufficiently large fuel. -/
def evalRust : Nat → Env → RustExpr → Option Value
  | 0, _, _ => none
  | fuel + 1, env, e =>
    match e with
    | .unit => some .unit
    | .lit (.int n) => some (.int n)
    | .lit (.str s) => some (.str s)
    | .lit (.bool b) => some (.bool b)
    | .ident n => lookupVar env n
    | .compileError _ => none
    | .identPanic _ => none
    | .binOp op l r => do
        evalBinOp op (← evalRust fuel env l) (← evalRust fuel env r)
    | .unaryNeg a => do
        match (← evalRust fuel env a) with
        | .int x => some (.int (-x))
        | _ => none
    | .unaryNot a => do
        match (← evalRust fuel env a) with
        | .bool b => some (.bool (!b))
        | _ => none
    | .ifThen c t => do
        match (← evalRust fuel env c) with
        | .bool true => evalRust fuel env t
        | .bool false => some .unit
        | _ => none
    | .ifThenElse c t f => do
        match (← evalRust fuel env c) with
        | .bool true => evalRust fuel env t
        | .bool false => evalRust fuel env f
        | _ => none
    | .letBlock binds body => do
        let env' ← evalBinds fuel env binds
        evalRust fuel env' body
    | .defnClosure _ params body => some (.closure params body env)
    | .callExpr f args => do
        let fv ← evalRust fuel env f
        let vs ← evalListRust fuel env args
        match fv with
        | .closure ps b cenv =>
          if ps.length = vs.length then evalRust fuel (List.zip ps vs ++ cenv) b
          else none
        | _ => none
    | .tryBlock _ _ => none
    | .doBlock stmts => evalStmts fuel env stmts
    | .whileLoop c b => evalWhile fuel env c b .unit
    | .dotimesLoop var count body => do
        match (← evalRust fuel env count) with
        | .int n => evalDotimes fuel env var body n.toNat 0
        | _ => none
    | .vecLit es => do some (.vec (← evalListRust fuel env es))
    | .firstOf a => do
        match (← evalRust fuel env a) with
        | .vec vs => some (vs.headD (.int 0))
        | _ => none
    | .restOf a => do
        match (← evalRust fuel env a) with
        | .vec vs => some (.vec (if vs.length > 1 then vs.tail else []))
        | _ => none
    | .consOnto h coll => do
        let hv ← evalRust fuel env h
        match (← evalRust fuel env coll) with
        | .vec vs => some (.vec (hv :: vs))
        | _ => none
    | .countOf a => do
        match (← evalRust fuel env a) with
        | .vec vs => some (.int vs.length)
        | _ => none
    | .strNew => some (.str "")
    | .strConcat parts => do
        let vs ← evalListRust fuel env parts
        let ss ← vs.mapM valueToString
        some (.str (String.join ss))
    | .minOf l r => do
        match (← evalRust fuel env l), (← evalRust fuel env r) with
        | .int x, .int y => some (.int (min x y))
        | _, _ => none
    | .maxOf l r => do
        match (← evalRust fuel env l), (← evalRust fuel env r) with
        | .int x, .int y => some (.int (max x y))
        | _, _ => none
    | .absI32 a => do
        match (← evalRust fuel env a) with
        | .int x => some (.int (if x < 0 then -x else x))
        | _ => none
    | .printlnDebug a => do
        let _ ← evalRust fuel env a
        some .unit
    | .printlnTuple args => do
        let _ ← evalListRust fuel env args
        some .unit

/-- Evaluate an argument list left to right. -/
def evalListRust : Nat → Env → List RustExpr → Option (List Value)
  | 0, _, _ => none
  | _ + 1, _, [] => some []
  | fuel + 1, env, e :: es => do
      let v ← evalRust fuel env e
      let vs ← evalListRust fuel env es
      some (v :: vs)

/-- Evaluate the `let` bindings of a block in order; each binding's value is
computed in the environment extended by all earlier bindings, and the new
binding is pushed in front (shadowing any earlier binding of the name). -/
def evalBinds : Nat → Env → List (String × RustExpr) → Option Env
  | 0, _, _ => none
  | _ + 1, env, [] => some env
  | fuel + 1, env, (n, e) :: rest => do
      let v ← evalRust fuel env e
      evalBinds fuel ((n, v) :: env) rest

/-- The value of a `{ s1; s2; ...; sn }` block: statements run in order and
the block's value is the last statement's value; an empty block is unit. -/
def evalStmts : Nat → Env → List RustExpr → Option Value
  | 0, _, _ => none
  | _ + 1, _, [] => some .unit
  | fuel + 1, env, [s] => evalRust fuel env s
  | fuel + 1, env, s :: rest => do
      let _ ← evalRust fuel env s
      evalStmts fuel env rest

/-- The generated `while` template: re-evaluate the condition before each
iteration, keep the most recent body value in `result` (initially unit). -/
def evalWhile : Nat → Env → RustExpr → RustExpr → Value → Option Value
  | 0, _, _, _, _ => none
  | fuel + 1, env, cond, body, result => do
      match (← evalRust fuel env cond) with
      | .bool true => do
          let v ← evalRust fuel env body
          evalWhile fuel env cond body v
      | .bool false => some result
      | _ => none

/-- The generated `dotimes` template: run the body with the loop variable
bound to `i` for `i` in `[0, n)`, discarding each body value; yields unit. -/
def evalDotimes : Nat → Env → String → RustExpr → Nat → Nat → Option Value
  | 0, _, _, _, _, _ => none
  | _ + 1, _, _, _, 0, _ => some .unit
  | fuel + 1, env, var, body, remaining + 1, i => do
      let _ ← evalRust fuel ((var, .int i) :: env) body
      evalDotimes fuel env var body remaining (i + 1)

end

/-- The auto-generated size of an expression is positive. -/
theorem sizeOf_pos_expr (e : LispExpr) : 0 < sizeOf e := by
  cases e <;> simp

/-- The auto-generated size of an expression list is positive. -/
theorem sizeOf_pos_exprList (l : List LispExpr) : 0 < sizeOf l := by
  cases l <;> simp

/-- Fuel irrelevance: any two fuels that dominate the size of the input give
the same result, for each function of the expander family. Consequently the
fuel in the wrappers below is an artifact of the embedding, not of the
modelled program. -/
theorem expander_mono (f : Nat) :
    (∀ (g : Nat) (e : LispExpr), sizeOf e ≤ f → sizeOf e ≤ g →
      to_rustF f e = to_rustF g e) ∧
    (∀ (g : Nat) (l : List LispExpr), sizeOf l ≤ f → sizeOf l ≤ g →
      to_rust_listF f l = to_rust_listF g l) ∧
    (∀ (g : Nat) (l : List LispExpr), sizeOf l ≤ f → sizeOf l ≤ g →
      let_pairsF f l = let_pairsF g l) ∧
    (∀ (g : Nat) (op_str : String) (args : List LispExpr),
      sizeOf args + 2 ≤ f → sizeOf args + 2 ≤ g →
      expand_operationF f op_str args = expand_operationF g op_str args) := by
  induction f using Nat.strong_induction_on with
  | _ f IH =>
    have IHr : ∀ m, m < f → ∀ (g : Nat) (e : LispExpr), sizeOf e ≤ m → sizeOf e ≤ g →
        to_rustF m e = to_rustF g e := fun m hm => (IH m hm).1
    have IHl : ∀ m, m < f → ∀ (g : Nat) (l : List LispExpr), sizeOf l ≤ m → sizeOf l ≤ g →
        to_rust_listF m l = to_rust_listF g l := fun m hm => (IH m hm).2.1
    have IHp : ∀ m, m < f → ∀ (g : Nat) (l : List LispExpr), sizeOf l ≤ m → sizeOf l ≤ g →
        let_pairsF m l = let_pairsF g l := fun m hm => (IH m hm).2.2.1
    have IHx : ∀ m, m < f → ∀ (g : Nat) (op_str : String) (args : List LispExpr),
        sizeOf args + 2 ≤ m → sizeOf args + 2 ≤ g →
        expand_operationF m op_str args = expand_operationF g op_str args :=
      fun m hm => (IH m hm).2.2.2
    refine ⟨?_, ?_, ?_, ?_⟩
    · intro g e hf hg
      have hpos := sizeOf_pos_expr e
      obtain ⟨f', rfl⟩ : ∃ f', f = f' + 1 := ⟨f - 1, by omega⟩
      obtain ⟨g', rfl⟩ : ∃ g', g = g' + 1 := ⟨g - 1, by omega⟩
      cases e with
      | Symbol s => rfl
      | Literal l => rfl
      | Operator op => rfl
      | Vector exprs =>
        show RustExpr.vecLit (to_rust_listF f' exprs) = RustExpr.vecLit (to_rust_listF g' exprs)
        rw [IHl f' (by omega) g' exprs (by simp at hf hg ⊢; omega) (by simp at hf hg ⊢; omega)]
      | List exprs =>
        cases exprs with
        | nil => rfl
        | cons first rest =>
          cases first with
          | Symbol op =>
            show expand_operationF f' op rest = expand_operationF g' op rest
            exact IHx f' (by omega) g' op rest (by simp at hf hg ⊢; omega) (by simp at hf hg ⊢; omega)
          | Operator op =>
            show expand_operationF f' op rest = expand_operationF g' op rest
            exact IHx f' (by omega) g' op rest (by simp at hf hg ⊢; omega) (by simp at hf hg ⊢; omega)
          | Literal l =>
            show RustExpr.callExpr (to_rustF f' (.Literal l)) (to_rust_listF f' rest)
                = RustExpr.callExpr (to_rustF g' (.Literal l)) (to_rust_listF g' rest)
            rw [IHr f' (by omega) g' (.Literal l) (by simp at hf hg ⊢; omega) (by simp at hf hg ⊢; omega),
              IHl f' (by omega) g' rest (by simp at hf hg ⊢; omega) (by simp at hf hg ⊢; omega)]
          | List es =>
            show RustExpr.callExpr (to_rustF f' (.List es)) (to_rust_listF f' rest)
                = RustExpr.callExpr (to_rustF g' (.List es)) (to_rust_listF g' rest)
            rw [IHr f' (by omega) g' (.List es) (by simp at hf hg ⊢; omega) (by simp at hf hg ⊢; omega),
              IHl f' (by omega) g' rest (by simp at hf hg ⊢; omega) (by simp at hf hg ⊢; omega)]
          | Vector es =>
            show RustExpr.callExpr (to_rustF f' (.Vector es)) (to_rust_listF f' rest)
                = RustExpr.callExpr (to_rustF g' (.Vector es)) (to_rust_listF g' rest)
            rw [IHr f' (by omega) g' (.Vector es) (by simp at hf hg ⊢; omega) (by simp at hf hg ⊢; omega),
              IHl f' (by omega) g' rest (by simp at hf hg ⊢; omega) (by simp at hf hg ⊢; omega)]
    · intro g l hf hg
      have hpos := sizeOf_pos_exprList l
      obtain ⟨f', rfl⟩ : ∃ f', f = f' + 1 := ⟨f - 1, by omega⟩
      obtain ⟨g', rfl⟩ : ∃ g', g = g' + 1 := ⟨g - 1, by omega⟩
      cases l with
      | nil => rfl
      | cons e es =>
        show to_rustF f' e :: to_rust_listF f' es = to_rustF g' e :: to_rust_listF g' es
        rw [IHr f' (by omega) g' e (by simp at hf hg ⊢; omega) (by simp at hf hg ⊢; omega),
          IHl f' (by omega) g' es (by simp at hf hg ⊢; omega) (by simp at hf hg ⊢; omega)]
    · intro g l hf hg
      have hpos := sizeOf_pos_exprList l
      obtain ⟨f', rfl⟩ : ∃ f', f = f' + 1 := ⟨f - 1, by omega⟩
      obtain ⟨g', rfl⟩ : ∃ g', g = g' + 1 := ⟨g - 1, by omega⟩
      cases l with
      | nil => rfl
      | cons b0 rest1 =>
        cases rest1 with
        | nil => rfl
        | cons value rest =>
          cases b0 with
          | Symbol n =>
            show (n, to_rustF f' value) :: let_pairsF f' rest
                = (n, to_rustF g' value) :: let_pairsF g' rest
            rw [IHr f' (by omega) g' value (by simp at hf hg ⊢; omega) (by simp at hf hg ⊢; omega),
              IHp f' (by omega) g' rest (by simp at hf hg ⊢; omega) (by simp at hf hg ⊢; omega)]
          | Literal l0 =>
            show let_pairsF f' rest = let_pairsF g' rest
            exact IHp f' (by omega) g' rest (by simp at hf hg ⊢; omega) (by simp at hf hg ⊢; omega)
          | List es =>
            show let_pairsF f' rest = let_pairsF g' rest
            exact IHp f' (by omega) g' rest (by simp at hf hg ⊢; omega) (by simp at hf hg ⊢; omega)
          | Vector es =>
            show let_pairsF f' rest = let_pairsF g' rest
            exact IHp f' (by omega) g' rest (by simp at hf hg ⊢; omega) (by simp at hf hg ⊢; omega)
          | Operator o0 =>
            show let_pairsF f' rest = let_pairsF g' rest
            exact IHp f' (by omega) g' rest (by simp at hf hg ⊢; omega) (by simp at hf hg ⊢; omega)
    · intro g op_str args hf hg
      obtain ⟨f', rfl⟩ : ∃ f', f = f' + 1 := ⟨f - 1, by omega⟩
      obtain ⟨g', rfl⟩ : ∃ g', g = g' + 1 := ⟨g - 1, by omega⟩
      rw [expand_operationF_succ f' op_str args, expand_operationF_succ g' op_str args]
      by_cases h1 : op_str = "+"
      · subst h1
        simp only [String.reduceEq, or_self, or_false, false_or, or_true, true_or, reduceIte]
        rcases args with _ | ⟨x, _ | ⟨y, restA⟩⟩
        · rfl
        · exact IHr f' (by omega) g' x (by simp at hf hg ⊢; omega) (by simp at hf hg ⊢; omega)
        · show (to_rust_listF f' (x :: y :: restA)).foldl (fun acc t => RustExpr.binOp "+" acc t) (RustExpr.lit (Lit.int 0))
            = (to_rust_listF g' (x :: y :: restA)).foldl (fun acc t => RustExpr.binOp "+" acc t) (RustExpr.lit (Lit.int 0))
          rw [IHl f' (by omega) g' (x :: y :: restA) (by omega) (by omega)]
      · by_cases h2 : op_str = "-"
        · subst h2
          simp only [String.reduceEq, or_self, or_false, false_or, or_true, true_or, reduceIte]
          rcases args with _ | ⟨x, _ | ⟨y, restA⟩⟩
          · rfl
          · show RustExpr.unaryNeg (to_rustF f' x)
              = RustExpr.unaryNeg (to_rustF g' x)
            rw [IHr f' (by omega) g' x (by simp at hf hg ⊢; omega) (by simp at hf hg ⊢; omega)]
          · show (to_rust_listF f' (y :: restA)).foldl (fun acc t => RustExpr.binOp "-" acc t) (to_rustF f' x)
              = (to_rust_listF g' (y :: restA)).foldl (fun acc t => RustExpr.binOp "-" acc t) (to_rustF g' x)
            rw [IHl f' (by omega) g' (y :: restA) (by simp at hf hg ⊢; omega) (by simp at hf hg ⊢; omega), IHr f' (by omega) g' x (by simp at hf hg ⊢; omega) (by simp at hf hg ⊢; omega)]
        · by_cases h3 : op_str = "*"
          · subst h3
            simp only [String.reduceEq, or_self, or_false, false_or, or_true, true_or, reduceIte]
            rcases args with _ | ⟨x, _ | ⟨y, restA⟩⟩
            · rfl
            · exact IHr f' (by omega) g' x (by simp at hf hg ⊢; omega) (by simp at hf hg ⊢; omega)
            · show (to_rust_listF f' (x :: y :: restA)).foldl (fun acc t => RustExpr.binOp "*" acc t) (RustExpr.lit (Lit.int 1))
                = (to_rust_listF g' (x :: y :: restA)).foldl (fun acc t => RustExpr.binOp "*" acc t) (RustExpr.lit (Lit.int 1))
              rw [IHl f' (by omega) g' (x :: y :: restA) (by omega) (by omega)]
          · by_cases h4 : op_str = "/"
            · subst h4
              simp only [String.reduceEq, or_self, or_false, false_or, or_true, true_or, reduceIte]
              rcases args with _ | ⟨x, _ | ⟨y, restA⟩⟩
              · rfl
              · rfl
              · show (to_rust_listF f' (y :: restA)).foldl (fun acc t => RustExpr.binOp "/" acc t) (to_rustF f' x)
                  = (to_rust_listF g' (y :: restA)).foldl (fun acc t => RustExpr.binOp "/" acc t) (to_rustF g' x)
                rw [IHl f' (by omega) g' (y :: restA) (by simp at hf hg ⊢; omega) (by simp at hf hg ⊢; omega), IHr f' (by omega) g' x (by simp at hf hg ⊢; omega) (by simp at hf hg ⊢; omega)]
            · by_cases h5 : op_str = "=" ∨ op_str = "eq"
              · rcases h5 with h5 | h5
                · subst h5
                  simp only [String.reduceEq, or_self, or_false, false_or, or_true, true_or, reduceIte]
                  rcases args with _ | ⟨a, _ | ⟨b, _ | ⟨c, restA⟩⟩⟩
                  · rfl
                  · rfl
                  · show RustExpr.binOp "==" (to_rustF f' a) (to_rustF f' b)
                      = RustExpr.binOp "==" (to_rustF g' a) (to_rustF g' b)
                    rw [IHr f' (by omega) g' a (by simp at hf hg ⊢; omega) (by simp at hf hg ⊢; omega), IHr f' (by omega) g' b (by simp at hf hg ⊢; omega) (by simp at hf hg ⊢; omega)]
                  · rfl
                · subst h5
                  simp only [String.reduceEq, or_self, or_false, false_or, or_true, true_or, reduceIte]
                  rcases args with _ | ⟨a, _ | ⟨b, _ | ⟨c, restA⟩⟩⟩
                  · rfl
                  · rfl
                  · show RustExpr.binOp "==" (to_rustF f' a) (to_rustF f' b)
                      = RustExpr.binOp "==" (to_rustF g' a) (to_rustF g' b)
                    rw [IHr f' (by omega) g' a (by simp at hf hg ⊢; omega) (by simp at hf hg ⊢; omega), IHr f' (by omega) g' b (by simp at hf hg ⊢; omega) (by simp at hf hg ⊢; omega)]
                  · rfl
              · by_cases h6 : op_str = "<"
                · subst h6
                  simp only [String.reduceEq, or_self, or_false, false_or, or_true, true_or, reduceIte]
                  rcases args with _ | ⟨a, _ | ⟨b, _ | ⟨c, restA⟩⟩⟩
                  · rfl
                  · rfl
                  · show RustExpr.binOp "<" (to_rustF f' a) (to_rustF f' b)
                      = RustExpr.binOp "<" (to_rustF g' a) (to_rustF g' b)
                    rw [IHr f' (by omega) g' a (by simp at hf hg ⊢; omega) (by simp at hf hg ⊢; omega), IHr f' (by omega) g' b (by simp at hf hg ⊢; omega) (by simp at hf hg ⊢; omega)]
                  · rfl
                · by_cases h7 : op_str = ">"
                  · subst h7
                    simp only [String.reduceEq, or_self, or_false, false_or, or_true, true_or, reduceIte]
                    rcases args with _ | ⟨a, _ | ⟨b, _ | ⟨c, restA⟩⟩⟩
                    · rfl
                    · rfl
                    · show RustExpr.binOp ">" (to_rustF f' a) (to_rustF f' b)
                        = RustExpr.binOp ">" (to_rustF g' a) (to_rustF g' b)
                      rw [IHr f' (by omega) g' a (by simp at hf hg ⊢; omega) (by simp at hf hg ⊢; omega), IHr f' (by omega) g' b (by simp at hf hg ⊢; omega) (by simp at hf hg ⊢; omega)]
                    · rfl
                  · by_cases h8 : op_str = "gte"
                    · subst h8
                      simp only [String.reduceEq, or_self, or_false, false_or, or_true, true_or, reduceIte]
                      rcases args with _ | ⟨a, _ | ⟨b, _ | ⟨c, restA⟩⟩⟩
                      · rfl
                      · rfl
                      · show RustExpr.binOp ">=" (to_rustF f' a) (to_rustF f' b)
                          = RustExpr.binOp ">=" (to_rustF g' a) (to_rustF g' b)
                        rw [IHr f' (by omega) g' a (by simp at hf hg ⊢; omega) (by simp at hf hg ⊢; omega), IHr f' (by omega) g' b (by simp at hf hg ⊢; omega) (by simp at hf hg ⊢; omega)]
                      · rfl
                    · by_cases h9 : op_str = "lte"
                      · subst h9
                        simp only [String.reduceEq, or_self, or_false, false_or, or_true, true_or, reduceIte]
                        rcases args with _ | ⟨a, _ | ⟨b, _ | ⟨c, restA⟩⟩⟩
                        · rfl
                        · rfl
                        · show RustExpr.binOp "<=" (to_rustF f' a) (to_rustF f' b)
                            = RustExpr.binOp "<=" (to_rustF g' a) (to_rustF g' b)
                          rw [IHr f' (by omega) g' a (by simp at hf hg ⊢; omega) (by simp at hf hg ⊢; omega), IHr f' (by omega) g' b (by simp at hf hg ⊢; omega) (by simp at hf hg ⊢; omega)]
                        · rfl
                      · by_cases h10 : op_str = "ne"
                        · subst h10
                          simp only [String.reduceEq, or_self, or_false, false_or, or_true, true_or, reduceIte]
                          rcases args with _ | ⟨a, _ | ⟨b, _ | ⟨c, restA⟩⟩⟩
                          · rfl
                          · rfl
                          · show RustExpr.binOp "!=" (to_rustF f' a) (to_rustF f' b)
                              = RustExpr.binOp "!=" (to_rustF g' a) (to_rustF g' b)
                            rw [IHr f' (by omega) g' a (by simp at hf hg ⊢; omega) (by simp at hf hg ⊢; omega), IHr f' (by omega) g' b (by simp at hf hg ⊢; omega) (by simp at hf hg ⊢; omega)]
                          · rfl
                        · by_cases h11 : op_str = "%" ∨ op_str = "modulo"
                          · rcases h11 with h11 | h11
                            · subst h11
                              simp only [String.reduceEq, or_self, or_false, false_or, or_true, true_or, reduceIte]
                              rcases args with _ | ⟨a, _ | ⟨b, _ | ⟨c, restA⟩⟩⟩
                              · rfl
                              · rfl
                              · show RustExpr.binOp "%" (to_rustF f' a) (to_rustF f' b)
                                  = RustExpr.binOp "%" (to_rustF g' a) (to_rustF g' b)
                                rw [IHr f' (by omega) g' a (by simp at hf hg ⊢; omega) (by simp at hf hg ⊢; omega), IHr f' (by omega) g' b (by simp at hf hg ⊢; omega) (by simp at hf hg ⊢; omega)]
                              · rfl
                            · subst h11
                              simp only [String.reduceEq, or_self, or_false, false_or, or_true, true_or, reduceIte]
                              rcases args with _ | ⟨a, _ | ⟨b, _ | ⟨c, restA⟩⟩⟩
                              · rfl
                              · rfl
                              · show RustExpr.binOp "%" (to_rustF f' a) (to_rustF f' b)
                                  = RustExpr.binOp "%" (to_rustF g' a) (to_rustF g' b)
                                rw [IHr f' (by omega) g' a (by simp at hf hg ⊢; omega) (by simp at hf hg ⊢; omega), IHr f' (by omega) g' b (by simp at hf hg ⊢; omega) (by simp at hf hg ⊢; omega)]
                              · rfl
                          · by_cases h12 : op_str = "if"
                            · subst h12
                              simp only [String.reduceEq, or_self, or_false, false_or, or_true, true_or, reduceIte]
                              rcases args with _ | ⟨c, _ | ⟨t0, _ | ⟨e0, _ | ⟨d, restA⟩⟩⟩⟩
                              · rfl
                              · rfl
                              · show RustExpr.ifThen (to_rustF f' c) (to_rustF f' t0)
                                  = RustExpr.ifThen (to_rustF g' c) (to_rustF g' t0)
                                rw [IHr f' (by omega) g' c (by simp at hf hg ⊢; omega) (by simp at hf hg ⊢; omega), IHr f' (by omega) g' t0 (by simp at hf hg ⊢; omega) (by simp at hf hg ⊢; omega)]
                              · show RustExpr.ifThenElse (to_rustF f' c) (to_rustF f' t0) (to_rustF f' e0)
                                  = RustExpr.ifThenElse (to_rustF g' c) (to_rustF g' t0) (to_rustF g' e0)
                                rw [IHr f' (by omega) g' c (by simp at hf hg ⊢; omega) (by simp at hf hg ⊢; omega), IHr f' (by omega) g' t0 (by simp at hf hg ⊢; omega) (by simp at hf hg ⊢; omega), IHr f' (by omega) g' e0 (by simp at hf hg ⊢; omega) (by simp at hf hg ⊢; omega)]
                              · rfl
                            · by_cases h13 : op_str = "let"
                              · subst h13
                                simp only [String.reduceEq, or_self, or_false, false_or, or_true, true_or, reduceIte]
                                rcases args with _ | ⟨b0, _ | ⟨body, restA⟩⟩
                                · rfl
                                · rfl
                                · rcases b0 with s | l0 | es | vs | o0
                                  · rfl
                                  · rfl
                                  · rfl
                                  · show RustExpr.letBlock (let_pairsF f' vs) (to_rustF f' body)
                                      = RustExpr.letBlock (let_pairsF g' vs) (to_rustF g' body)
                                    rw [IHp f' (by omega) g' vs (by simp at hf hg ⊢; omega) (by simp at hf hg ⊢; omega), IHr f' (by omega) g' body (by simp at hf hg ⊢; omega) (by simp at hf hg ⊢; omega)]
                                  · rfl
                              · by_cases h14 : op_str = "defn"
                                · subst h14
                                  simp only [String.reduceEq, or_self, or_false, false_or, or_true, true_or, reduceIte]
                                  rcases args with _ | ⟨a0, _ | ⟨a1, _ | ⟨body, restA⟩⟩⟩
                                  · rfl
                                  · rfl
                                  · rfl
                                  · rcases a0 with s | l0 | es | vs | o0
                                    · rcases a1 with s1 | l1 | es1 | vs1 | o1
                                      · rfl
                                      · rfl
                                      · rfl
                                      · show RustExpr.defnClosure s (symbolNames vs1) (to_rustF f' body)
                                          = RustExpr.defnClosure s (symbolNames vs1) (to_rustF g' body)
                                        rw [IHr f' (by omega) g' body (by simp at hf hg ⊢; omega) (by simp at hf hg ⊢; omega)]
                                      · rfl
                                    · rcases a1 with _ | _ | _ | _ | _ <;> rfl
                                    · rcases a1 with _ | _ | _ | _ | _ <;> rfl
                                    · rcases a1 with _ | _ | _ | _ | _ <;> rfl
                                    · rcases a1 with _ | _ | _ | _ | _ <;> rfl
                                · by_cases h15 : op_str = "call"
                                  · subst h15
                                    simp only [String.reduceEq, or_self, or_false, false_or, or_true, true_or, reduceIte]
                                    rcases args with _ | ⟨fn, fargs⟩
                                    · rfl
                                    · show RustExpr.callExpr (to_rustF f' fn) (to_rust_listF f' fargs)
                                        = RustExpr.callExpr (to_rustF g' fn) (to_rust_listF g' fargs)
                                      rw [IHr f' (by omega) g' fn (by simp at hf hg ⊢; omega) (by simp at hf hg ⊢; omega), IHl f' (by omega) g' fargs (by simp at hf hg ⊢; omega) (by simp at hf hg ⊢; omega)]
                                  · by_cases h16 : op_str = "try"
                                    · subst h16
                                      simp only [String.reduceEq, or_self, or_false, false_or, or_true, true_or, reduceIte]
                                      rcases args with _ | ⟨b, _ | ⟨c, restA⟩⟩
                                      · rfl
                                      · show RustExpr.tryBlock (to_rustF f' b) none
                                          = RustExpr.tryBlock (to_rustF g' b) none
                                        rw [IHr f' (by omega) g' b (by simp at hf hg ⊢; omega) (by simp at hf hg ⊢; omega)]
                                      · show RustExpr.tryBlock (to_rustF f' b) (some (to_rustF f' c))
                                          = RustExpr.tryBlock (to_rustF g' b) (some (to_rustF g' c))
                                        rw [IHr f' (by omega) g' b (by simp at hf hg ⊢; omega) (by simp at hf hg ⊢; omega), IHr f' (by omega) g' c (by simp at hf hg ⊢; omega) (by simp at hf hg ⊢; omega)]
                                    · by_cases h17 : op_str = "do"
                                      · subst h17
                                        simp only [String.reduceEq, or_self, or_false, false_or, or_true, true_or, reduceIte]
                                        show RustExpr.doBlock (to_rust_listF f' args)
                                            = RustExpr.doBlock (to_rust_listF g' args)
                                        rw [IHl f' (by omega) g' args (by omega) (by omega)]
                                      · by_cases h18 : op_str = "with-vars"
                                        · subst h18
                                          simp only [String.reduceEq, or_self, or_false, false_or, or_true, true_or, reduceIte]
                                          rcases args with _ | ⟨b0, _ | ⟨body, restA⟩⟩
                                          · rfl
                                          · rfl
                                          · rcases b0 with s | l0 | es | vs | o0
                                            · rfl
                                            · rfl
                                            · rfl
                                            · show RustExpr.letBlock ((symbolNames vs).map (fun v => (v, RustExpr.ident v))) (to_rustF f' body)
                                                = RustExpr.letBlock ((symbolNames vs).map (fun v => (v, RustExpr.ident v))) (to_rustF g' body)
                                              rw [IHr f' (by omega) g' body (by simp at hf hg ⊢; omega) (by simp at hf hg ⊢; omega)]
                                            · rfl
                                        · by_cases h19 : op_str = "while"
                                          · subst h19
                                            simp only [String.reduceEq, or_self, or_false, false_or, or_true, true_or, reduceIte]
                                            rcases args with _ | ⟨c, _ | ⟨b, _ | ⟨d, restA⟩⟩⟩
                                            · rfl
                                            · rfl
                                            · show RustExpr.whileLoop (to_rustF f' c) (to_rustF f' b)
                                                = RustExpr.whileLoop (to_rustF g' c) (to_rustF g' b)
                                              rw [IHr f' (by omega) g' c (by simp at hf hg ⊢; omega) (by simp at hf hg ⊢; omega), IHr f' (by omega) g' b (by simp at hf hg ⊢; omega) (by simp at hf hg ⊢; omega)]
                                            · rfl
                                          · by_cases h20 : op_str = "dotimes"
                                            · subst h20
                                              simp only [String.reduceEq, or_self, or_false, false_or, or_true, true_or, reduceIte]
                                              rcases args with _ | ⟨a0, _ | ⟨count, _ | ⟨body, _ | ⟨d, restA⟩⟩⟩⟩
                                              · rfl
                                              · rfl
                                              · rfl
                                              · rcases a0 with s | l0 | es | vs | o0
                                                · show RustExpr.dotimesLoop s (to_rustF f' count) (to_rustF f' body)
                                                    = RustExpr.dotimesLoop s (to_rustF g' count) (to_rustF g' body)
                                                  rw [IHr f' (by omega) g' count (by simp at hf hg ⊢; omega) (by simp at hf hg ⊢; omega), IHr f' (by omega) g' body (by simp at hf hg ⊢; omega) (by simp at hf hg ⊢; omega)]
                                                · rfl
                                                · rfl
                                                · rfl
                                                · rfl
                                              · rfl
                                            · by_cases h21 : op_str = "and"
                                              · subst h21
                                                simp only [String.reduceEq, or_self, or_false, false_or, or_true, true_or, reduceIte]
                                                rcases args with _ | ⟨x, _ | ⟨y, restA⟩⟩
                                                · rfl
                                                · rfl
                                                · show (to_rust_listF f' (x :: y :: restA)).foldl (fun acc t => RustExpr.binOp "&&" acc t) (RustExpr.lit (Lit.bool true))
                                                    = (to_rust_listF g' (x :: y :: restA)).foldl (fun acc t => RustExpr.binOp "&&" acc t) (RustExpr.lit (Lit.bool true))
                                                  rw [IHl f' (by omega) g' (x :: y :: restA) (by omega) (by omega)]
                                              · by_cases h22 : op_str = "or"
                                                · subst h22
                                                  simp only [String.reduceEq, or_self, or_false, false_or, or_true, true_or, reduceIte]
                                                  rcases args with _ | ⟨x, _ | ⟨y, restA⟩⟩
                                                  · rfl
                                                  · rfl
                                                  · show (to_rust_listF f' (x :: y :: restA)).foldl (fun acc t => RustExpr.binOp "||" acc t) (RustExpr.lit (Lit.bool false))
                                                      = (to_rust_listF g' (x :: y :: restA)).foldl (fun acc t => RustExpr.binOp "||" acc t) (RustExpr.lit (Lit.bool false))
                                                    rw [IHl f' (by omega) g' (x :: y :: restA) (by omega) (by omega)]
                                                · by_cases h23 : op_str = "not"
                                                  · subst h23
                                                    simp only [String.reduceEq, or_self, or_false, false_or, or_true, true_or, reduceIte]
                                                    rcases args with _ | ⟨a, _ | ⟨b, restA⟩⟩
                                                    · rfl
                                                    · show RustExpr.unaryNot (to_rustF f' a)
                                                        = RustExpr.unaryNot (to_rustF g' a)
                                                      rw [IHr f' (by omega) g' a (by simp at hf hg ⊢; omega) (by simp at hf hg ⊢; omega)]
                                                    · rfl
                                                  · by_cases h24 : op_str = "first"
                                                    · subst h24
                                                      simp only [String.reduceEq, or_self, or_false, false_or, or_true, true_or, reduceIte]
                                                      rcases args with _ | ⟨a, _ | ⟨b, restA⟩⟩
                                                      · rfl
                                                      · show RustExpr.firstOf (to_rustF f' a)
                                                          = RustExpr.firstOf (to_rustF g' a)
                                                        rw [IHr f' (by omega) g' a (by simp at hf hg ⊢; omega) (by simp at hf hg ⊢; omega)]
                                                      · rfl
                                                    · by_cases h25 : op_str = "rest"
                                                      · subst h25
                                                        simp only [String.reduceEq, or_self, or_false, false_or, or_true, true_or, reduceIte]
                                                        rcases args with _ | ⟨a, _ | ⟨b, restA⟩⟩
                                                        · rfl
                                                        · show RustExpr.restOf (to_rustF f' a)
                                                            = RustExpr.restOf (to_rustF g' a)
                                                          rw [IHr f' (by omega) g' a (by simp at hf hg ⊢; omega) (by simp at hf hg ⊢; omega)]
                                                        · rfl
                                                      · by_cases h26 : op_str = "cons"
                                                        · subst h26
                                                          simp only [String.reduceEq, or_self, or_false, false_or, or_true, true_or, reduceIte]
                                                          rcases args with _ | ⟨a, _ | ⟨b, _ | ⟨c, restA⟩⟩⟩
                                                          · rfl
                                                          · rfl
                                                          · show RustExpr.consOnto (to_rustF f' a) (to_rustF f' b)
                                                              = RustExpr.consOnto (to_rustF g' a) (to_rustF g' b)
                                                            rw [IHr f' (by omega) g' a (by simp at hf hg ⊢; omega) (by simp at hf hg ⊢; omega), IHr f' (by omega) g' b (by simp at hf hg ⊢; omega) (by simp at hf hg ⊢; omega)]
                                                          · rfl
                                                        · by_cases h27 : op_str = "count"
                                                          · subst h27
                                                            simp only [String.reduceEq, or_self, or_false, false_or, or_true, true_or, reduceIte]
                                                            rcases args with _ | ⟨a, _ | ⟨b, restA⟩⟩
                                                            · rfl
                                                            · show RustExpr.countOf (to_rustF f' a)
                                                                = RustExpr.countOf (to_rustF g' a)
                                                              rw [IHr f' (by omega) g' a (by simp at hf hg ⊢; omega) (by simp at hf hg ⊢; omega)]
                                                            · rfl
                                                          · by_cases h28 : op_str = "str"
                                                            · subst h28
                                                              simp only [String.reduceEq, or_self, or_false, false_or, or_true, true_or, reduceIte]
                                                              rcases args with _ | ⟨x, restA⟩
                                                              · rfl
                                                              · show RustExpr.strConcat (to_rust_listF f' (x :: restA))
                                                                  = RustExpr.strConcat (to_rust_listF g' (x :: restA))
                                                                rw [IHl f' (by omega) g' (x :: restA) (by omega) (by omega)]
                                                            · by_cases h29 : op_str = "min"
                                                              · subst h29
                                                                simp only [String.reduceEq, or_self, or_false, false_or, or_true, true_or, reduceIte]
                                                                rcases args with _ | ⟨x, _ | ⟨y, restA⟩⟩
                                                                · rfl
                                                                · rfl
                                                                · show (to_rust_listF f' (y :: restA)).foldl (fun acc t => RustExpr.minOf acc t) (to_rustF f' x)
                                                                    = (to_rust_listF g' (y :: restA)).foldl (fun acc t => RustExpr.minOf acc t) (to_rustF g' x)
                                                                  rw [IHl f' (by omega) g' (y :: restA) (by simp at hf hg ⊢; omega) (by simp at hf hg ⊢; omega), IHr f' (by omega) g' x (by simp at hf hg ⊢; omega) (by simp at hf hg ⊢; omega)]
                                                              · by_cases h30 : op_str = "max"
                                                                · subst h30
                                                                  simp only [String.reduceEq, or_self, or_false, false_or, or_true, true_or, reduceIte]
                                                                  rcases args with _ | ⟨x, _ | ⟨y, restA⟩⟩
                                                                  · rfl
                                                                  · rfl
                                                                  · show (to_rust_listF f' (y :: restA)).foldl (fun acc t => RustExpr.maxOf acc t) (to_rustF f' x)
                                                                      = (to_rust_listF g' (y :: restA)).foldl (fun acc t => RustExpr.maxOf acc t) (to_rustF g' x)
                                                                    rw [IHl f' (by omega) g' (y :: restA) (by simp at hf hg ⊢; omega) (by simp at hf hg ⊢; omega), IHr f' (by omega) g' x (by simp at hf hg ⊢; omega) (by simp at hf hg ⊢; omega)]
                                                                · by_cases h31 : op_str = "abs"
                                                                  · subst h31
                                                                    simp only [String.reduceEq, or_self, or_false, false_or, or_true, true_or, reduceIte]
                                                                    rcases args with _ | ⟨a, _ | ⟨b, restA⟩⟩
                                                                    · rfl
                                                                    · show RustExpr.absI32 (to_rustF f' a)
                                                                        = RustExpr.absI32 (to_rustF g' a)
                                                                      rw [IHr f' (by omega) g' a (by simp at hf hg ⊢; omega) (by simp at hf hg ⊢; omega)]
                                                                    · rfl
                                                                  · by_cases h32 : op_str = "inc"
                                                                    · subst h32
                                                                      simp only [String.reduceEq, or_self, or_false, false_or, or_true, true_or, reduceIte]
                                                                      rcases args with _ | ⟨a, _ | ⟨b, restA⟩⟩
                                                                      · rfl
                                                                      · show RustExpr.binOp "+" (to_rustF f' a) (RustExpr.lit (Lit.int 1))
                                                                          = RustExpr.binOp "+" (to_rustF g' a) (RustExpr.lit (Lit.int 1))
                                                                        rw [IHr f' (by omega) g' a (by simp at hf hg ⊢; omega) (by simp at hf hg ⊢; omega)]
                                                                      · rfl
                                                                    · by_cases h33 : op_str = "dec"
                                                                      · subst h33
                                                                        simp only [String.reduceEq, or_self, or_false, false_or, or_true, true_or, reduceIte]
                                                                        rcases args with _ | ⟨a, _ | ⟨b, restA⟩⟩
                                                                        · rfl
                                                                        · show RustExpr.binOp "-" (to_rustF f' a) (RustExpr.lit (Lit.int 1))
                                                                            = RustExpr.binOp "-" (to_rustF g' a) (RustExpr.lit (Lit.int 1))
                                                                          rw [IHr f' (by omega) g' a (by simp at hf hg ⊢; omega) (by simp at hf hg ⊢; omega)]
                                                                        · rfl
                                                                      · by_cases h34 : op_str = "zero"
                                                                        · subst h34
                                                                          simp only [String.reduceEq, or_self, or_false, false_or, or_true, true_or, reduceIte]
                                                                          rcases args with _ | ⟨a, _ | ⟨b, restA⟩⟩
                                                                          · rfl
                                                                          · show RustExpr.binOp "==" (to_rustF f' a) (RustExpr.lit (Lit.int 0))
                                                                              = RustExpr.binOp "==" (to_rustF g' a) (RustExpr.lit (Lit.int 0))
                                                                            rw [IHr f' (by omega) g' a (by simp at hf hg ⊢; omega) (by simp at hf hg ⊢; omega)]
                                                                          · rfl
                                                                        · by_cases h35 : op_str = "pos"
                                                                          · subst h35
                                                                            simp only [String.reduceEq, or_self, or_false, false_or, or_true, true_or, reduceIte]
                                                                            rcases args with _ | ⟨a, _ | ⟨b, restA⟩⟩
                                                                            · rfl
                                                                            · show RustExpr.binOp ">" (to_rustF f' a) (RustExpr.lit (Lit.int 0))
                                                                                = RustExpr.binOp ">" (to_rustF g' a) (RustExpr.lit (Lit.int 0))
                                                                              rw [IHr f' (by omega) g' a (by simp at hf hg ⊢; omega) (by simp at hf hg ⊢; omega)]
                                                                            · rfl
                                                                          · by_cases h36 : op_str = "neg"
                                                                            · subst h36
                                                                              simp only [String.reduceEq, or_self, or_false, false_or, or_true, true_or, reduceIte]
                                                                              rcases args with _ | ⟨a, _ | ⟨b, restA⟩⟩
                                                                              · rfl
                                                                              · show RustExpr.binOp "<" (to_rustF f' a) (RustExpr.lit (Lit.int 0))
                                                                                  = RustExpr.binOp "<" (to_rustF g' a) (RustExpr.lit (Lit.int 0))
                                                                                rw [IHr f' (by omega) g' a (by simp at hf hg ⊢; omega) (by simp at hf hg ⊢; omega)]
                                                                              · rfl
                                                                            · by_cases h37 : op_str = "even"
                                                                              · subst h37
                                                                                simp only [String.reduceEq, or_self, or_false, false_or, or_true, true_or, reduceIte]
                                                                                rcases args with _ | ⟨a, _ | ⟨b, restA⟩⟩
                                                                                · rfl
                                                                                · show RustExpr.binOp "==" (RustExpr.binOp "%" (to_rustF f' a) (RustExpr.lit (Lit.int 2))) (RustExpr.lit (Lit.int 0))
                                                                                    = RustExpr.binOp "==" (RustExpr.binOp "%" (to_rustF g' a) (RustExpr.lit (Lit.int 2))) (RustExpr.lit (Lit.int 0))
                                                                                  rw [IHr f' (by omega) g' a (by simp at hf hg ⊢; omega) (by simp at hf hg ⊢; omega)]
                                                                                · rfl
                                                                              · by_cases h38 : op_str = "odd"
                                                                                · subst h38
                                                                                  simp only [String.reduceEq, or_self, or_false, false_or, or_true, true_or, reduceIte]
                                                                                  rcases args with _ | ⟨a, _ | ⟨b, restA⟩⟩
                                                                                  · rfl
                                                                                  · show RustExpr.binOp "!=" (RustExpr.binOp "%" (to_rustF f' a) (RustExpr.lit (Lit.int 2))) (RustExpr.lit (Lit.int 0))
                                                                                      = RustExpr.binOp "!=" (RustExpr.binOp "%" (to_rustF g' a) (RustExpr.lit (Lit.int 2))) (RustExpr.lit (Lit.int 0))
                                                                                    rw [IHr f' (by omega) g' a (by simp at hf hg ⊢; omega) (by simp at hf hg ⊢; omega)]
                                                                                  · rfl
                                                                                · by_cases h39 : op_str = "println"
                                                                                  · subst h39
                                                                                    simp only [String.reduceEq, or_self, or_false, false_or, or_true, true_or, reduceIte]
                                                                                    rcases args with _ | ⟨a, _ | ⟨b, restA⟩⟩
                                                                                    · show RustExpr.printlnTuple (to_rust_listF f' [])
                                                                                        = RustExpr.printlnTuple (to_rust_listF g' [])
                                                                                      rw [IHl f' (by omega) g' [] (by omega) (by omega)]
                                                                                    · show RustExpr.printlnDebug (to_rustF f' a)
                                                                                        = RustExpr.printlnDebug (to_rustF g' a)
                                                                                      rw [IHr f' (by omega) g' a (by simp at hf hg ⊢; omega) (by simp at hf hg ⊢; omega)]
                                                                                    · show RustExpr.printlnTuple (to_rust_listF f' (a :: b :: restA))
                                                                                        = RustExpr.printlnTuple (to_rust_listF g' (a :: b :: restA))
                                                                                      rw [IHl f' (by omega) g' (a :: b :: restA) (by omega) (by omega)]
                                                                                  · simp only [h1, h2, h3, h4, h5, h6, h7, h8, h9, h10, h11, h12, h13, h14, h15, h16, h17, h18, h19, h20, h21, h22, h23, h24, h25, h26, h27, h28, h29, h30, h31, h32, h33, h34, h35, h36, h37, h38, h39, or_self, ite_false]
                                                                                    rw [IHl f' (by omega) g' args (by omega) (by omega)]

/-- Any fuel dominating the size of the input computes the canonical
`to_rust`. -/
theorem to_rustF_canon (f : Nat) (e : LispExpr) (h : sizeOf e ≤ f) :
    to_rustF f e = to_rust e :=
  (expander_mono f).1 (sizeOf e + 1) e h (by omega)

/-- Any sufficient fuel computes the canonical `to_rust_list`. -/
theorem to_rust_listF_canon (f : Nat) (l : List LispExpr) (h : sizeOf l ≤ f) :
    to_rust_listF f l = to_rust_list l :=
  (expander_mono f).2.1 (sizeOf l + 1) l h (by omega)

/-- Any sufficient fuel computes the canonical `let_pairs`. -/
theorem let_pairsF_canon (f : Nat) (l : List LispExpr) (h : sizeOf l ≤ f) :
    let_pairsF f l = let_pairs l :=
  (expander_mono f).2.2.1 (sizeOf l + 1) l h (by omega)

/-- Any sufficient fuel computes the canonical `expand_operation`. -/
theorem expand_operationF_canon (f : Nat) (op_str : String) (args : List LispExpr)
    (h : sizeOf args + 2 ≤ f) :
    expand_operationF f op_str args = expand_operation op_str args :=
  (expander_mono f).2.2.2 (sizeOf args + 2) op_str args h (by omega)

/-! ### Equations of the fuel-free expander

The behavior of `to_rust` and `expand_operation` on each input shape, as
plain rewriting rules. -/

/-- A symbol expands to a bare reference to its name. -/
theorem to_rust_Symbol (s : String) : to_rust (.Symbol s) = .ident s := rfl

/-- A literal expands to itself. -/
theorem to_rust_Literal (l : Lit) : to_rust (.Literal l) = .lit l := rfl

/-- A standalone operator expands to the canonically-named identifier. -/
theorem to_rust_Operator (op : String) :
    to_rust (.Operator op)
      = if isValidIdent (operatorIdent op) then .ident (operatorIdent op)
        else .identPanic (operatorIdent op) := rfl

/-- An empty list expands to the unit value. -/
theorem to_rust_List_nil : to_rust (.List []) = RustExpr.unit := rfl

/-- A list headed by a symbol dispatches through the operation table. -/
theorem to_rust_List_symbol (op : String) (rest : List LispExpr) :
    to_rust (.List (.Symbol op :: rest)) = expand_operation op rest := by
  show expand_operationF (sizeOf (LispExpr.List (.Symbol op :: rest))) op rest = _
  exact expand_operationF_canon _ _ _ (by simp; omega)

/-- A list headed by an operator dispatches through the operation table. -/
theorem to_rust_List_operator (op : String) (rest : List LispExpr) :
    to_rust (.List (.Operator op :: rest)) = expand_operation op rest := by
  show expand_operationF (sizeOf (LispExpr.List (.Operator op :: rest))) op rest = _
  exact expand_operationF_canon _ _ _ (by simp; omega)

/-- A vector expands to a `vec!` of the expanded elements. -/
theorem to_rust_Vector (es : List LispExpr) :
    to_rust (.Vector es) = .vecLit (to_rust_list es) := by
  show RustExpr.vecLit (to_rust_listF (sizeOf (LispExpr.Vector es)) es) = _
  rw [to_rust_listF_canon _ _ (by simp)]

/-- Elementwise expansion: empty list. -/
theorem to_rust_list_nil : to_rust_list [] = [] := rfl

/-- Elementwise expansion: cons. -/
theorem to_rust_list_cons (e : LispExpr) (es : List LispExpr) :
    to_rust_list (e :: es) = to_rust e :: to_rust_list es := by
  show to_rustF (sizeOf (e :: es)) e :: to_rust_listF (sizeOf (e :: es)) es = _
  rw [to_rustF_canon _ _ (by simp; omega), to_rust_listF_canon _ _ (by simp)]

/-- `let` binding pairs of an empty binding vector. -/
theorem let_pairs_nil : let_pairs [] = [] := rfl

/-- A trailing odd binding element contributes no pair. -/
theorem let_pairs_one (x : LispExpr) : let_pairs [x] = [] := rfl

/-- A chunk of two led by a symbol contributes one binding pair. -/
theorem let_pairs_symbol_cons (n : String) (v : LispExpr) (rest : List LispExpr) :
    let_pairs (.Symbol n :: v :: rest) = (n, to_rust v) :: let_pairs rest := by
  show (n, to_rustF (sizeOf (LispExpr.Symbol n :: v :: rest)) v)
      :: let_pairsF (sizeOf (LispExpr.Symbol n :: v :: rest)) rest = _
  rw [to_rustF_canon _ _ (by simp; omega), let_pairsF_canon _ _ (by simp; omega)]

/-- `(+)` expands to the additive identity literal `0`. -/
theorem expand_plus_nil : expand_operation "+" [] = .lit (.int 0) := rfl

/-- `(+ x)` expands to the expansion of `x` itself. -/
theorem expand_plus_one (x : LispExpr) : expand_operation "+" [x] = to_rust x := by
  show to_rustF (sizeOf [x] + 1) x = _
  exact to_rustF_canon _ _ (by simp; omega)

/-- `(*)` expands to the multiplicative identity literal `1`. -/
theorem expand_mul_nil : expand_operation "*" [] = .lit (.int 1) := rfl

/-- `(* x)` expands to the expansion of `x` itself. -/
theorem expand_mul_one (x : LispExpr) : expand_operation "*" [x] = to_rust x := by
  show to_rustF (sizeOf [x] + 1) x = _
  exact to_rustF_canon _ _ (by simp; omega)

/-- `let` with a `Vector` first argument and at least two arguments expands
to the block of the chunked pairs around the expansion of the second
argument; every argument past the second disappears from the output. -/
theorem expand_let_vector (bs : List LispExpr) (body : LispExpr) (rest : List LispExpr) :
    expand_operation "let" (.Vector bs :: body :: rest)
      = .letBlock (let_pairs bs) (to_rust body) := by
  show RustExpr.letBlock
      (let_pairsF (sizeOf (LispExpr.Vector bs :: body :: rest) + 1) bs)
      (to_rustF (sizeOf (LispExpr.Vector bs :: body :: rest) + 1) body) = _
  rw [let_pairsF_canon _ _ (by simp; omega), to_rustF_canon _ _ (by simp; omega)]

/-- Well-shaped `defn`: closure over the `Symbol` parameters only. -/
theorem expand_defn_ok (name : String) (params : List LispExpr) (body : LispExpr)
    (rest : List LispExpr) :
    expand_operation "defn" (.Symbol name :: .Vector params :: body :: rest)
      = .defnClosure name (symbolNames params) (to_rust body) := by
  show RustExpr.defnClosure name (symbolNames params)
      (to_rustF (sizeOf (LispExpr.Symbol name :: LispExpr.Vector params :: body :: rest) + 1)
        body) = _
  rw [to_rustF_canon _ _ (by simp; omega)]

/-- Well-shaped `with-vars`: the self-rebinding capture block over the
`Symbol` variables only. -/
theorem expand_with_vars_ok (vars : List LispExpr) (body : LispExpr)
    (rest : List LispExpr) :
    expand_operation "with-vars" (.Vector vars :: body :: rest)
      = .letBlock ((symbolNames vars).map (fun v => (v, RustExpr.ident v)))
          (to_rust body) := by
  show RustExpr.letBlock ((symbolNames vars).map (fun v => (v, RustExpr.ident v)))
      (to_rustF (sizeOf (LispExpr.Vector vars :: body :: rest) + 1) body) = _
  rw [to_rustF_canon _ _ (by simp; omega)]

/-- `do` expands to the block of all expanded children, with no arity check. -/
theorem expand_do_eq (args : List LispExpr) :
    expand_operation "do" args = .doBlock (to_rust_list args) := by
  show RustExpr.doBlock (to_rust_listF (sizeOf args + 1) args) = _
  rw [to_rust_listF_canon _ _ (by omega)]

/-- One-argument `println`: a single debug print. -/
theorem expand_println_one (a : LispExpr) :
    expand_operation "println" [a] = .printlnDebug (to_rust a) := by
  show RustExpr.printlnDebug (to_rustF (sizeOf [a] + 1) a) = _
  rw [to_rustF_canon _ _ (by simp; omega)]

/-- Zero-argument `println`: a debug print of the empty tuple. -/
theorem expand_println_nil : expand_operation "println" [] = .printlnTuple [] := rfl

/-- Two-or-more-argument `println`: a debug print of the argument tuple. -/
theorem expand_println_many (a b : LispExpr) (t : List LispExpr) :
    expand_operation "println" (a :: b :: t)
      = .printlnTuple (to_rust_list (a :: b :: t)) := by
  show RustExpr.printlnTuple (to_rust_listF (sizeOf (a :: b :: t) + 1) (a :: b :: t)) = _
  rw [to_rust_listF_canon _ _ (by omega)]

/-! ### The parser and the entry point of `src/biglisp-macros/src/lib.rs`

Token streams are modelled after `proc_macro2::TokenTree`: groups with a
delimiter, identifier tokens (keywords included), literal tokens (covering
`true`/`false`, which `syn`'s `Lit` peek accepts) and single-character
punctuation. The parsers below mirror `impl Parse for LispExpr` of
`src/biglisp-core/src/lib.rs` and the local `LispWithVars` parser plus the
fallback logic of the `lisp` function. -/

/-- A group delimiter of the host token stream. -/
inductive Delim
  | paren
  | bracket
  | brace
deriving DecidableEq, Repr

/-- A token tree of the host token stream. -/
inductive Tok
  | group (d : Delim) (inner : List Tok)
  | ident (s : String)
  | lit (l : Lit)
  | punct (c : Char)

compile_inductive% Tok

/-- The reserved words of the host language: `syn::Ident`'s `Parse` and the
`lookahead.peek(Ident)` test reject all of these (`if`, `let`, `do`, `while`
and `try` are instead special-cased by the `LispExpr` parser, and `true` /
`false` are literal tokens in this model). -/
def rustKeywords : List String :=
  ["as", "break", "const", "continue", "crate", "dyn", "else", "enum",
   "extern", "false", "fn", "for", "if", "impl", "in", "let", "loop", "match",
   "mod", "move", "mut", "pub", "ref", "return", "self", "Self", "static",
   "struct", "super", "trait", "true", "type", "unsafe", "use", "where",
   "while", "abstract", "become", "box", "do", "final", "macro", "override",
   "priv", "try", "typeof", "unsized", "virtual", "yield", "async", "await"]

/-- Whether an identifier token is a reserved word of the host language. -/
def isRustKeyword (s : String) : Bool := rustKeywords.contains s

mutual

/-- `impl Parse for LispExpr` of `src/biglisp-core/src/lib.rs`: consume one
expression from the front of a token stream, returning it and the remaining
tokens. Alternatives are tried in source order: parenthesized list,
bracketed vector, the operator puncts `+ - * / = < > %`, a literal, the
keyword symbols `if let do while try`, then any non-reserved identifier;
anything else is a syntax error. Fuel-indexed (structural recursion); every
alternative consumes at least one token, so `sizeOf` of the stream bounds
the recursion depth and the fuel in the `parseExpr` wrapper is sufficient. -/
def parseOneF : Nat → List Tok → Except String (LispExpr × List Tok)
  | 0, _ => .error "recursion limit"
  | fuel + 1, toks =>
    match toks with
    | [] => .error "unexpected end of input"
    | .group .paren inner :: rest =>
      match parseAllF fuel inner with
      | .ok es => .ok (.List es, rest)
      | .error msg => .error msg
    | .group .bracket inner :: rest =>
      match parseAllF fuel inner with
      | .ok es => .ok (.Vector es, rest)
      | .error msg => .error msg
    | .group .brace _ :: _ => .error "unexpected token"
    | .punct '+' :: rest => .ok (.Operator "+", rest)
    | .punct '-' :: rest => .ok (.Operator "-", rest)
    | .punct '*' :: rest => .ok (.Operator "*", rest)
    | .punct '/' :: rest => .ok (.Operator "/", rest)
    | .punct '=' :: rest => .ok (.Operator "=", rest)
    | .punct '<' :: rest => .ok (.Operator "<", rest)
    | .punct '>' :: rest => .ok (.Operator ">", rest)
    | .punct '%' :: rest => .ok (.Operator "%", rest)
    | .lit l :: rest => .ok (.Literal l, rest)
    | .ident s :: rest =>
      if s = "if" ∨ s = "let" ∨ s = "do" ∨ s = "while" ∨ s = "try" then
        .ok (.Symbol s, rest)
      else if isRustKeyword s then .error "expected identifier"
      else .ok (.Symbol s, rest)
    | .punct _ :: _ => .error "unexpected token"

/-- The `while !content.is_empty()` loops of the source: parse expressions
one after another until the stream is exhausted. -/
def parseAllF : Nat → List Tok → Except String (List LispExpr)
  | 0, _ => .error "recursion limit"
  | _ + 1, [] => .ok []
  | fuel + 1, t :: ts =>
    match parseOneF fuel (t :: ts) with
    | .ok (e, rest) =>
      match parseAllF fuel rest with
      | .ok es => .ok (e :: es)
      | .error msg => .error msg
    | .error msg => .error msg

end

/-- Parse one expression: the fuel-free entry point. -/
def parseExpr (toks : List Tok) : Except String (LispExpr × List Tok) :=
  parseOneF (sizeOf toks + 1) toks

/-- The variable-list loop of `LispWithVars::parse`: inside the brackets,
parse identifiers separated by commas (a trailing comma is accepted), each
identifier rejected if it is a reserved word. -/
def parseVarList : List Tok → Except String (List String)
  | [] => .ok []
  | .ident s :: rest =>
    if isRustKeyword s then .error "expected identifier"
    else
      match rest with
      | [] => .ok [s]
      | .punct ',' :: rest2 =>
        match parseVarList rest2 with
        | .ok vars => .ok (s :: vars)
        | .error msg => .error msg
      | _ => .error "expected comma"
  | _ => .error "expected identifier"

/-- `syn::parse::<LispWithVars>`: the input must begin with a bracketed
group holding a comma-separated identifier list, followed by exactly one
expression that consumes the whole remaining input (``syn::parse`` fails on
leftover tokens). -/
def parseLispWithVars (toks : List Tok) :
    Except String (List String × LispExpr) :=
  match toks with
  | .group .bracket inner :: rest =>
    match parseVarList inner with
    | .ok vars =>
      match parseExpr rest with
      | .ok (e, []) => .ok (vars, e)
      | .ok (_, _ :: _) => .error "unexpected token"
      | .error msg => .error msg
    | .error msg => .error msg
  | _ => .error "expected square brackets"

/-- The `lisp` entry point of `src/biglisp-macros/src/lib.rs`: first try the
variable-capture form; on success, emit the rebinding block
`{ let v = v;* expansion }`. Otherwise fall back to parsing the whole input
as one plain expression with no captures (`parse_macro_input!` also rejects
leftover tokens). An `error` result is the emitted compile-time diagnostic. -/
def lispMacro (toks : List Tok) : Except String RustExpr :=
  match parseLispWithVars toks with
  | .ok (vars, e) =>
    .ok (.letBlock (vars.map (fun v => (v, RustExpr.ident v))) (to_rust e))
  | .error _ =>
    match parseExpr toks with
    | .ok (e, []) => .ok (to_rust e)
    | .ok (_, _ :: _) => .error "unexpected token"
    | .error msg => .error msg

/-- The token spelling of a comma-separated identifier list, used to state
the variable-capture claim. -/
def commaSepIdents : List String → List Tok
  | [] => []
  | [n] => [.ident n]
  | n :: rest => .ident n :: .punct ',' :: commaSepIdents rest


/-- Parsing the spelled-out comma-separated identifier list recovers exactly
the listed names, provided none is a reserved word. -/
theorem parseVarList_commaSep (names : List String)
    (h : ∀ n ∈ names, isRustKeyword n = false) :
    parseVarList (commaSepIdents names) = .ok names := by
  induction names with
  | nil => rfl
  | cons n rest ih =>
    cases rest with
    | nil =>
      show parseVarList [.ident n] = .ok [n]
      simp [parseVarList, h n (by simp)]
    | cons m t =>
      have hn : isRustKeyword n = false := h n (by simp)
      have ih2 := ih (fun x hx => h x (by simp [hx]))
      show parseVarList (.ident n :: .punct ',' :: commaSepIdents (m :: t))
          = .ok (n :: m :: t)
      simp [parseVarList, hn, ih2]

/-! ## Claims -/

/-- The fixed-arity table entries named by claim C1, with their required
argument counts. -/
def fixedArityOps : List (String × Nat) :=
  [("=", 2), ("<", 2), (">", 2), ("gte", 2), ("lte", 2), ("ne", 2),
   ("%", 2), ("modulo", 2), ("not", 1), ("first", 1), ("rest", 1),
   ("count", 1), ("abs", 1), ("inc", 1), ("dec", 1), ("zero", 1), ("pos", 1),
   ("neg", 1), ("even", 1), ("odd", 1), ("cons", 2), ("while", 2),
   ("dotimes", 3)]

/-- C1: every fixed-arity operation of the table (the binary comparisons,
`%`/`modulo`, the unary operations, `cons`, `while` and the ternary
`dotimes`), when given one argument fewer or one argument more than its
required arity, expands to a `compile_error!` diagnostic, never to an
ordinary generated expression. -/
theorem c1_arity_errors (op_str : String) (k : Nat)
    (hmem : (op_str, k) ∈ fixedArityOps) (args : List LispExpr)
    (hlen : args.length + 1 = k ∨ args.length = k + 1) :
    isCompileError (expand_operation op_str args) = true := by
  fin_cases hmem <;>
    rcases args with _ | ⟨a, _ | ⟨b, _ | ⟨c, _ | ⟨d, t⟩⟩⟩⟩ <;>
    first
      | rfl
      | (exfalso; simp at hlen <;> omega)

/-- C1 witness: `<` with a single argument is an expansion error. -/
theorem c1_witness :
    isCompileError (expand_operation "<" [.Literal (.int 1)]) = true :=
  c1_arity_errors "<" 2 (by decide) [.Literal (.int 1)] (Or.inl (by decide))

/-- C2 counterexample: expanding the standalone operator `>=` does not yield
a reference to `op_gte` as claimed; the sequential `.replace` chain rewrites
the contained `=` (and `>`) before the two-character rule can see the
string, producing `op_gteq`. -/
theorem c2_counterexample :
    to_rust (LispExpr.Operator ">=") = RustExpr.ident "op_gteq" ∧
    identName (to_rust (LispExpr.Operator ">=")) ≠ some "op_gte" :=
  ⟨rfl, by decide⟩

/-- C2 (amended): the single-character operators `+ - * / = < > %` expand to
references to `op_plus`, `op_minus`, `op_mul`, `op_div`, `op_eq`, `op_lt`,
`op_gt` and `op_mod` exactly as claimed; but because the replacement chain
applies the single-character rules for `=`, `<` and `>` first, the forms
`>=` and `<=` yield `op_gteq` and `op_lteq` rather than the claimed
`op_gte` and `op_lte`, and for `!=` the chain produces the string `op_!eq`,
which is not a valid identifier: `Ident::new` panics on it, so the
expansion aborts rather than producing any reference at all. -/
theorem c2_amended :
    to_rust (LispExpr.Operator "+") = RustExpr.ident "op_plus" ∧
    to_rust (LispExpr.Operator "-") = RustExpr.ident "op_minus" ∧
    to_rust (LispExpr.Operator "*") = RustExpr.ident "op_mul" ∧
    to_rust (LispExpr.Operator "/") = RustExpr.ident "op_div" ∧
    to_rust (LispExpr.Operator "=") = RustExpr.ident "op_eq" ∧
    to_rust (LispExpr.Operator "<") = RustExpr.ident "op_lt" ∧
    to_rust (LispExpr.Operator ">") = RustExpr.ident "op_gt" ∧
    to_rust (LispExpr.Operator "%") = RustExpr.ident "op_mod" ∧
    to_rust (LispExpr.Operator ">=") = RustExpr.ident "op_gteq" ∧
    to_rust (LispExpr.Operator "<=") = RustExpr.ident "op_lteq" ∧
    (operatorIdent "!=" = "op_!eq" ∧
     isValidIdent "op_!eq" = false ∧
     to_rust (LispExpr.Operator "!=") = RustExpr.identPanic "op_!eq") :=
  ⟨rfl, rfl, rfl, rfl, rfl, rfl, rfl, rfl, rfl, rfl, rfl, rfl, rfl⟩

/-- C3 counterexample: a `let` whose binding `Vector` has an odd number of
elements is not an expansion error — `(let [a] 1)` expands to an ordinary
block, the trailing binding element being silently dropped. -/
theorem c3_counterexample :
    expand_operation "let" [.Vector [.Symbol "a"], .Literal (.int 1)]
      = .letBlock [] (.lit (.int 1)) ∧
    isCompileError
      (expand_operation "let" [.Vector [.Symbol "a"], .Literal (.int 1)]) = false :=
  ⟨rfl, rfl⟩

/-- C3 (amended): a `let` form with fewer than two arguments, or whose first
argument is not a `Vector`, yields the expansion error naming the violated
shape; but a `Vector` first argument with at least two arguments always
expands to an ordinary block regardless of the parity of the vector — an
odd number of binding elements is accepted, the trailing element ignored. -/
theorem c3_amended (args : List LispExpr) :
    (args.length < 2 →
      expand_operation "let" args = .compileError "Let requires bindings and body") ∧
    (∀ first rest, args = first :: rest → 1 ≤ rest.length →
      (∀ bs, first ≠ .Vector bs) →
      expand_operation "let" args = .compileError "Let requires vector of bindings") ∧
    (∀ bs body rest, args = .Vector bs :: body :: rest →
      expand_operation "let" args = .letBlock (let_pairs bs) (to_rust body)) := by
  refine ⟨?_, ?_, ?_⟩
  · intro hlen
    rcases args with _ | ⟨a, _ | ⟨b, t⟩⟩
    · rfl
    · rfl
    · exfalso; simp at hlen <;> omega
  · rintro f r rfl hlen hnv
    rcases r with _ | ⟨b, t⟩
    · simp at hlen
    · rcases f with s | l | es | vs | o
      · rfl
      · rfl
      · rfl
      · exact absurd rfl (hnv vs)
      · rfl
  · rintro bs body rest rfl
    exact expand_let_vector bs body rest

/-- C3 witness: the amended theorem at the odd-vector example, showing an
ordinary block rather than an error. -/
theorem c3_witness :
    expand_operation "let" [.Vector [.Symbol "a"], .Literal (.int 1)]
      = .letBlock (let_pairs [.Symbol "a"]) (to_rust (.Literal (.int 1))) :=
  (c3_amended [.Vector [.Symbol "a"], .Literal (.int 1)]).2.2
    [.Symbol "a"] (.Literal (.int 1)) [] rfl

/-- The `let`-sequencing example of claim C4: `(let [a 1 a (+ a 1)] a)`. -/
def letSeqExample : LispExpr :=
  .List [.Symbol "let",
         .Vector [.Symbol "a", .Literal (.int 1), .Symbol "a",
                  .List [.Operator "+", .Symbol "a", .Literal (.int 1)]],
         .Symbol "a"]

/-- C4: `let` bindings are sequential, not simultaneous — the generated code
for `(let [a 1 a (+ a 1)] a)` is a block of two `let`s in which the second
binding's right-hand side sees the first, and running it under the
generated-code semantics yields `2`. -/
theorem c4_let_sequential :
    to_rust letSeqExample
      = .letBlock
          [("a", .lit (.int 1)),
           ("a", .binOp "+" (.binOp "+" (.lit (.int 0)) (.ident "a")) (.lit (.int 1)))]
          (.ident "a") ∧
    evalRust 32 [] (to_rust letSeqExample) = some (.int 2) :=
  ⟨rfl, rfl⟩

/-- C5: the identity laws of the arithmetic expansions — `(+)` expands to the
literal `0`, `(*)` to the literal `1`, and the one-argument forms `(+ x)`
and `(* x)` expand to exactly the expansion of `x` itself, unchanged. -/
theorem c5_identity_laws :
    expand_operation "+" [] = .lit (.int 0) ∧
    expand_operation "*" [] = .lit (.int 1) ∧
    (∀ x : LispExpr, expand_operation "+" [x] = to_rust x) ∧
    (∀ x : LispExpr, expand_operation "*" [x] = to_rust x) :=
  ⟨rfl, rfl, expand_plus_one, expand_mul_one⟩

/-- C6 counterexample: a zero-argument `println` is not an expansion error;
it expands to a debug print of the empty tuple. -/
theorem c6_counterexample :
    expand_operation "println" [] = .printlnTuple [] ∧
    isCompileError (expand_operation "println" []) = false :=
  ⟨rfl, rfl⟩

/-- C6 (amended): `println` performs no arity check at all — one argument
expands to a single debug print, any other argument count (zero included)
expands to a debug print of the tuple of the arguments, and no argument
list ever yields an expansion error. -/
theorem c6_amended :
    (∀ args : List LispExpr, isCompileError (expand_operation "println" args) = false) ∧
    (∀ a : LispExpr, expand_operation "println" [a] = .printlnDebug (to_rust a)) ∧
    (∀ args : List LispExpr, args.length ≠ 1 →
      expand_operation "println" args = .printlnTuple (to_rust_list args)) := by
  refine ⟨fun args => ?_, expand_println_one, fun args h => ?_⟩
  · rcases args with _ | ⟨a, _ | ⟨b, t⟩⟩ <;> rfl
  · rcases args with _ | ⟨a, _ | ⟨b, t⟩⟩
    · rfl
    · simp at h
    · exact expand_println_many a b t

/-- C6 witness: the amended theorem at the empty argument list. -/
theorem c6_witness :
    expand_operation "println" [] = .printlnTuple (to_rust_list []) :=
  c6_amended.2.2 [] (by decide)

/-- C7: an empty `List` expands to the unit value `()` — never an error —
an empty `do` expands to an empty block, and both evaluate to the unit
value under the generated-code semantics, in any environment. -/
theorem c7_empty_list_unit :
    to_rust (.List []) = RustExpr.unit ∧
    expand_operation "do" [] = .doBlock [] ∧
    (∀ (fuel : Nat) (env : Env), evalRust (fuel + 1) env RustExpr.unit = some Value.unit) ∧
    (∀ (fuel : Nat) (env : Env),
      evalRust (fuel + 2) env (.doBlock []) = some Value.unit) :=
  ⟨rfl, rfl, fun _ _ => rfl, fun _ _ => rfl⟩

/-- C8: the variable-capture entry point — an input of the shape
`[ident, ident, ...] expr` (a bracketed comma-separated identifier list
followed by one expression consuming the rest of the input) expands to the
block that rebinds each listed identifier to itself before the expansion of
the expression; and whenever the bracketed-identifier-list form fails to
parse, the input is instead parsed as one plain expression with no
captures. -/
theorem c8_variable_capture (names : List String) (rest : List Tok) (e : LispExpr)
    (hkw : ∀ n ∈ names, isRustKeyword n = false)
    (hparse : parseExpr rest = .ok (e, [])) :
    lispMacro (Tok.group .bracket (commaSepIdents names) :: rest)
      = .ok (.letBlock (names.map (fun v => (v, RustExpr.ident v))) (to_rust e)) ∧
    (∀ (toks : List Tok) (msg : String), parseLispWithVars toks = .error msg →
      lispMacro toks =
        match parseExpr toks with
        | .ok (e', []) => .ok (to_rust e')
        | .ok (_, _ :: _) => .error "unexpected token"
        | .error m => .error m) := by
  constructor
  · simp only [lispMacro, parseLispWithVars]
    rw [parseVarList_commaSep names hkw, hparse]
  · intro toks msg h
    simp only [lispMacro, h]

/-- C8 witness: `lisp!([x] x)` captures `x` and expands to the rebinding
block around the reference to `x`. -/
theorem c8_witness :
    lispMacro [Tok.group .bracket [Tok.ident "x"], Tok.ident "x"]
      = .ok (.letBlock [("x", RustExpr.ident "x")] (.ident "x")) := by
  have h := (c8_variable_capture ["x"] [Tok.ident "x"] (.Symbol "x")
    (by decide) rfl).1
  exact h

/-- C9: in a `let` form only the second argument becomes the body of the
generated block — all later arguments are silently discarded: the expansion
with extra arguments is identical to the two-argument expansion, and in
particular is an ordinary block, not an error. -/
theorem c9_let_extra_args_discarded (bs : List LispExpr) (body : LispExpr)
    (extras : List LispExpr) :
    expand_operation "let" (.Vector bs :: body :: extras)
      = expand_operation "let" [.Vector bs, body] ∧
    expand_operation "let" (.Vector bs :: body :: extras)
      = .letBlock (let_pairs bs) (to_rust body) := by
  have h1 := expand_let_vector bs body extras
  have h2 := expand_let_vector bs body []
  exact ⟨h1.trans h2.symm, h1⟩

/-- C10: `defn` silently filters every non-`Symbol` element out of its
parameter `Vector` — the generated closure's parameter list keeps only the
`Symbol` names — and `with-vars` does the same to its variable `Vector`;
neither case is an error. -/
theorem c10_non_symbol_filtered (name : String) (params : List LispExpr)
    (body : LispExpr) (extras : List LispExpr) (vars : List LispExpr)
    (body2 : LispExpr) (extras2 : List LispExpr) :
    expand_operation "defn" (.Symbol name :: .Vector params :: body :: extras)
      = .defnClosure name (params.filterMap symbolName) (to_rust body) ∧
    isCompileError (expand_operation "defn"
      (.Symbol name :: .Vector params :: body :: extras)) = false ∧
    expand_operation "with-vars" (.Vector vars :: body2 :: extras2)
      = .letBlock ((vars.filterMap symbolName).map (fun v => (v, RustExpr.ident v)))
          (to_rust body2) ∧
    isCompileError (expand_operation "with-vars"
      (.Vector vars :: body2 :: extras2)) = false := by
  have h1 := expand_defn_ok name params body extras
  have h2 := expand_with_vars_ok vars body2 extras2
  refine ⟨h1, ?_, h2, ?_⟩
  · rw [h1]; rfl
  · rw [h2]; rfl

end BigLisp
